import Mathlib

/-!
Shallow embedding of the document assembly / realignment engine of the
`ocr_module` repository, together with proofs about its specified behaviour.

Conventions of the embedding:
* Python `str` is modelled as `List Char` (`PyStr`).
* Python `float` is modelled as `ℚ` (`PyFloat`); none of the verified code
  paths perform float arithmetic whose rounding could matter.
* Python `int` is modelled as `Int`; values that are list lengths or counts
  are modelled as `Nat` where Python guarantees non-negativity.
* Python `bytes` payloads are opaque to the verified code and are modelled
  as `List Nat`.
* Fallible code paths (Python exceptions such as `IndexError`, `KeyError`,
  `ValueError`) are modelled with `Option`: `none` means the Python code
  would raise.
-/

namespace OcrModule

abbrev PyStr := List Char

abbrev PyFloat := ℚ

abbrev BBox := PyFloat × PyFloat × PyFloat × PyFloat

abbrev Bytes := List Nat

/-- Python list indexing `xs[i]`: non-negative indices from the front,
negative indices wrap from the back, out of range raises (`none`). -/
def pyIndex (xs : List α) (i : Int) : Option α :=
  if 0 ≤ i then xs.get? i.toNat
  else if 0 ≤ (xs.length : Int) + i then xs.get? ((xs.length : Int) + i).toNat
  else none

/-- Python slicing `xs[a:b]` for non-negative bounds (the only case the
embedded code exercises): take the stop index, then drop the start index. -/
def pySlice (xs : List α) (a b : Int) : List α :=
  (xs.take b.toNat).drop a.toNat

/-- Python `s.count(pat)`: number of non-overlapping occurrences of `pat`
in `s`, scanning left to right.  (The embedded code never calls it with an
empty pattern, for which this returns 0.) -/
def pyCount (pat s : PyStr) : Nat :=
  match pat, s with
  | [], _ => 0
  | _ :: _, [] => 0
  | p :: ps, c :: s2 =>
    if (p :: ps) <+: (c :: s2) then 1 + pyCount (p :: ps) (s2.drop ps.length)
    else pyCount (p :: ps) s2
termination_by s.length
decreasing_by
  · simp only [List.length_cons, List.length_drop]; omega
  · simp only [List.length_cons]; omega

/-- Python `s.replace(pat, repl, 1)`: replace the first occurrence of `pat`
in `s` by `repl` (identity when there is no occurrence). -/
def pyReplaceFirst (pat s repl : PyStr) : PyStr :=
  match pat, s with
  | [], _ => s
  | _ :: _, [] => []
  | p :: ps, c :: s2 =>
    if (p :: ps) <+: (c :: s2) then repl ++ s2.drop ps.length
    else c :: pyReplaceFirst (p :: ps) s2 repl
termination_by s.length
decreasing_by
  simp only [List.length_cons]; omega

/-- Python `pat in s`: substring containment. -/
def pyContains (pat s : PyStr) : Bool :=
  match pat, s with
  | [], _ => true
  | _ :: _, [] => false
  | p :: ps, c :: s2 => decide ((p :: ps) <+: (c :: s2)) || pyContains (p :: ps) s2

/-- Reference (specification-side) substitution: scan `s` left to right and
replace the k-th occurrence of `pat` by the k-th element of `reps`,
leaving the string unchanged once `reps` is exhausted. -/
def pySubstTokens (pat s : PyStr) (reps : List PyStr) : PyStr :=
  match pat, reps, s with
  | [], _, _ => s
  | _ :: _, [], _ => s
  | _ :: _, _ :: _, [] => []
  | p :: ps, r :: rs, c :: s2 =>
    if (p :: ps) <+: (c :: s2) then r ++ pySubstTokens (p :: ps) (s2.drop ps.length) rs
    else c :: pySubstTokens (p :: ps) s2 (r :: rs)
termination_by s.length
decreasing_by
  · simp only [List.length_cons, List.length_drop]; omega
  · simp only [List.length_cons]; omega

/-- The literal inline-formula placeholder token. -/
def formulaTok : PyStr := (":formula:").toList

/-! ## Domain entities (src/ocr_module/domain/entities/page_models.py) -/

/-- `Formula` entity. -/
structure Formula where
  formula_id : Int
  latex_value : PyStr
  bbox : BBox
  type : PyStr
  page_number : Int
deriving DecidableEq

/-- `DisplayFormula` entity. -/
structure DisplayFormula where
  formula_id : Int
  latex_value : PyStr
  bbox : BBox
  type : PyStr
  page_number : Int
  image_data : Option Bytes
deriving DecidableEq

/-- `Paragraph` entity. -/
structure Paragraph where
  paragraph_id : Int
  role : Option PyStr
  content : PyStr
  bbox : BBox
  page_number : Int
deriving DecidableEq

/-- `ParagraphWithTranslation` entity. -/
structure ParagraphWithTranslation where
  paragraph_id : Int
  role : Option PyStr
  content : PyStr
  bbox : BBox
  page_number : Int
  translation : Option PyStr
deriving DecidableEq

/-- `Figure` entity (page_models.py). -/
structure Figure where
  figure_id : Int
  bbox : BBox
  page_number : Int
  image_data : Option Bytes
deriving DecidableEq

/-- `Table` entity (page_models.py). -/
structure Table where
  table_id : Int
  bbox : BBox
  page_number : Int
  image_data : Option Bytes
deriving DecidableEq

/-- `Page` entity. -/
structure Page where
  page_number : Int
  width : PyFloat
  height : PyFloat
  formulas : List Formula
  display_formulas : List DisplayFormula
  paragraphs : List Paragraph
  figures : List Figure
  tables : List Table
deriving DecidableEq

/-- `PageWithTranslation` entity. -/
structure PageWithTranslation where
  page_number : Int
  width : PyFloat
  height : PyFloat
  paragraphs : List ParagraphWithTranslation
  formulas : List Formula
  display_formulas : List DisplayFormula
  figures : List Figure
  tables : List Table
deriving DecidableEq

/-- `Paragraph.to_paragraph_with_translation` (page_models.py). -/
def Paragraph.to_paragraph_with_translation (p : Paragraph) : ParagraphWithTranslation :=
  { paragraph_id := p.paragraph_id
    role := p.role
    content := p.content
    bbox := p.bbox
    page_number := p.page_number
    translation := some p.content }

/-- `Page.to_page_with_translation` (page_models.py). -/
def Page.to_page_with_translation (p : Page) : PageWithTranslation :=
  { page_number := p.page_number
    width := p.width
    height := p.height
    paragraphs := p.paragraphs.map Paragraph.to_paragraph_with_translation
    formulas := p.formulas
    display_formulas := p.display_formulas
    figures := p.figures
    tables := p.tables }

/-! ## Section entities (src/ocr_module/domain/entities/section_models.py) -/

/-- `Section` entity. -/
structure Section where
  section_id : Int
  paragraphs : List Paragraph
  paragraph_ids : List Int
  tables : List Table
  table_ids : List Int
  figures : List Figure
  figure_ids : List Int
deriving DecidableEq

/-- `SectionWithTranslation` entity. -/
structure SectionWithTranslation where
  section_id : Int
  paragraphs : List ParagraphWithTranslation
  paragraph_ids : List Int
  tables : List Table
  table_ids : List Int
  figures : List Figure
  figure_ids : List Int
deriving DecidableEq

/-- `TranslationUsageStatsConfig` entity (usage_model.py); all fields default. -/
structure TranslationUsageStatsConfig where
  model_name : PyStr := []
  version : PyStr := []
  api_endpoint : PyStr := []
  input_character_count : Int := 0
  output_character_count : Int := 0
  input_token_count : Int := 0
  output_token_count : Int := 0
deriving DecidableEq

/-! ## Python `dict` serialisation model, for the `to_dict`/`from_dict` pairs.

`dataclasses.asdict` output is modelled as an association list from string
keys to a value universe `PyVal` covering the field types that actually
occur; `cls(**data)` is modelled as looking up each constructor field by
name and requiring that no unexpected key remains. -/

inductive PyVal where
  | pyInt (i : Int)
  | pyStr (s : PyStr)
  | pyNone
  | pyBBox (b : BBox)
deriving DecidableEq

abbrev PyDict := List (String × PyVal)

/-- An `Optional[str]` field as stored by `asdict`. -/
def optStrVal : Option PyStr → PyVal
  | none => PyVal.pyNone
  | some s => PyVal.pyStr s

/-- Read back an `Optional[str]` field. -/
def asOptStr : PyVal → Option (Option PyStr)
  | PyVal.pyNone => some none
  | PyVal.pyStr s => some (some s)
  | _ => none

/-- First value bound to key `k`. -/
def lookupKey (d : PyDict) (k : String) : Option PyVal :=
  (d.find? (fun kv => kv.1 = k)).map Prod.snd

/-- `Paragraph.to_dict` (`asdict`, all five fields). -/
def Paragraph.to_dict (p : Paragraph) : PyDict :=
  [("paragraph_id", PyVal.pyInt p.paragraph_id),
   ("role", optStrVal p.role),
   ("content", PyVal.pyStr p.content),
   ("bbox", PyVal.pyBBox p.bbox),
   ("page_number", PyVal.pyInt p.page_number)]

/-- `Paragraph.from_dict`: drop an `image_data` key, then `cls(**data)`. -/
def Paragraph.from_dict (data : PyDict) : Option Paragraph :=
  let d := data.filter (fun kv => kv.1 ≠ "image_data")
  if d.length = 5 then
    match lookupKey d "paragraph_id", lookupKey d "role", lookupKey d "content",
        lookupKey d "bbox", lookupKey d "page_number" with
    | some (PyVal.pyInt pid), some role, some (PyVal.pyStr c),
        some (PyVal.pyBBox b), some (PyVal.pyInt pn) =>
      match asOptStr role with
      | some r => some ⟨pid, r, c, b, pn⟩
      | none => none
    | _, _, _, _, _ => none
  else none

/-- `ParagraphWithTranslation.to_dict` (`asdict`, all six fields). -/
def ParagraphWithTranslation.to_dict (p : ParagraphWithTranslation) : PyDict :=
  [("paragraph_id", PyVal.pyInt p.paragraph_id),
   ("role", optStrVal p.role),
   ("content", PyVal.pyStr p.content),
   ("bbox", PyVal.pyBBox p.bbox),
   ("page_number", PyVal.pyInt p.page_number),
   ("translation", optStrVal p.translation)]

/-- `ParagraphWithTranslation.from_dict`: `cls(**data)`. -/
def ParagraphWithTranslation.from_dict (data : PyDict) : Option ParagraphWithTranslation :=
  if data.length = 6 then
    match lookupKey data "paragraph_id", lookupKey data "role", lookupKey data "content",
        lookupKey data "bbox", lookupKey data "page_number", lookupKey data "translation" with
    | some (PyVal.pyInt pid), some role, some (PyVal.pyStr c),
        some (PyVal.pyBBox b), some (PyVal.pyInt pn), some tr =>
      match asOptStr role, asOptStr tr with
      | some r, some t => some ⟨pid, r, c, b, pn, t⟩
      | _, _ => none
    | _, _, _, _, _, _ => none
  else none

/-- `Formula.to_dict` (`asdict`, all five fields). -/
def Formula.to_dict (f : Formula) : PyDict :=
  [("formula_id", PyVal.pyInt f.formula_id),
   ("latex_value", PyVal.pyStr f.latex_value),
   ("bbox", PyVal.pyBBox f.bbox),
   ("type", PyVal.pyStr f.type),
   ("page_number", PyVal.pyInt f.page_number)]

/-- `Formula.from_dict`: `cls(**data)`. -/
def Formula.from_dict (data : PyDict) : Option Formula :=
  if data.length = 5 then
    match lookupKey data "formula_id", lookupKey data "latex_value", lookupKey data "bbox",
        lookupKey data "type", lookupKey data "page_number" with
    | some (PyVal.pyInt fid), some (PyVal.pyStr lv), some (PyVal.pyBBox b),
        some (PyVal.pyStr ty), some (PyVal.pyInt pn) =>
      some ⟨fid, lv, b, ty, pn⟩
    | _, _, _, _, _ => none
  else none

/-! ## Python `dict` with `int` keys, for `GetTranslatedPageUseCase`. -/

/-- `d[k] = v` on a Python dict: overwrite in place if the key exists,
otherwise append (insertion order preserved). -/
def dictSetInt (d : List (Int × α)) (k : Int) (v : α) : List (Int × α) :=
  if d.any (fun kv => kv.1 = k) then
    d.map (fun kv => if kv.1 = k then (k, v) else kv)
  else d ++ [(k, v)]

/-- `d[k]` / `k in d` lookup on a Python dict. -/
def dictGetInt (d : List (Int × α)) (k : Int) : Option α :=
  (d.find? (fun kv => kv.1 = k)).map Prod.snd

/-! ## GetTranslatedPageUseCase (src/ocr_module/usecase/get_translated_page.py) -/

namespace GetTranslatedPageUseCase

/-- `_get_page_paragraphs`: flatten every section's paragraph list into a
`paragraph_id → ParagraphWithTranslation` dict. -/
def get_page_paragraphs (sections : List SectionWithTranslation) :
    List (Int × ParagraphWithTranslation) :=
  sections.foldl
    (fun acc s => s.paragraphs.foldl (fun acc2 q => dictSetInt acc2 q.paragraph_id q) acc)
    []

/-- `_convert_page_to_page_with_translation`. -/
def convert_page_to_page_with_translation (page : Page)
    (paragraph_dict : List (Int × ParagraphWithTranslation)) : PageWithTranslation :=
  { page_number := page.page_number
    width := page.width
    height := page.height
    formulas := page.formulas
    display_formulas := page.display_formulas
    figures := page.figures
    tables := page.tables
    paragraphs := page.paragraphs.map (fun p =>
      match dictGetInt paragraph_dict p.paragraph_id with
      | some q => q
      | none =>
        { paragraph_id := p.paragraph_id
          role := p.role
          content := p.content
          bbox := p.bbox
          page_number := p.page_number
          translation := some p.content }) }

/-- `GetTranslatedPageUseCase.execute`. -/
def execute (pages : List Page) (translated_sections : List SectionWithTranslation) :
    List PageWithTranslation :=
  let paragraph_dict := get_page_paragraphs translated_sections
  pages.map (fun page => convert_page_to_page_with_translation page paragraph_dict)

end GetTranslatedPageUseCase

/-! ## Section fan-out use cases
(src/ocr_module/usecase/translate_section.py and translate_section_formula_id.py)

The translation provider is an external collaborator; it is passed in as a
function argument.  `concurrent.futures.as_completed` yields finished tasks
in a non-deterministic completion order; that order is modelled as an
explicit list of task indices (a permutation of the task range). -/

/-- Modelled from the spec: `Paragraph.content_length` is called by
translate_section_formula_id.py but is not defined in the provided sources;
the spec sizes translation requests by the amount of paragraph content, so
it is modelled as the character count of `content`. -/
def Paragraph.content_length (p : Paragraph) : Nat :=
  p.content.length

/-- Modelled from the spec: `Section.content_length` (undefined in the
provided sources, used to order sections by content size) — the total
character count of the section's paragraph contents. -/
def Section.content_length (s : Section) : Nat :=
  (s.paragraphs.map Paragraph.content_length).sum

namespace TranslateSectionUseCase

/-- `TranslateSectionUseCase.execute`: submit one translation task per
section, then append results in completion order (`as_completed`), given by
`completion`, a permutation of the task indices.  No re-sorting happens. -/
def execute (translate : Section → SectionWithTranslation) (completion : List Nat)
    (sections : List Section) : List SectionWithTranslation :=
  completion.filterMap (fun i => (sections.get? i).map translate)

end TranslateSectionUseCase

namespace TranslateSectionFormulaIdUseCase

/-- Field-by-field usage-stats update performed in the aggregation loops:
names are overwritten, counts are added. -/
def updateStats (a b : TranslationUsageStatsConfig) : TranslationUsageStatsConfig :=
  { model_name := b.model_name
    version := b.version
    api_endpoint := b.api_endpoint
    input_character_count := a.input_character_count + b.input_character_count
    output_character_count := a.output_character_count + b.output_character_count
    input_token_count := a.input_token_count + b.input_token_count
    output_token_count := a.output_token_count + b.output_token_count }

/-- `execute`: the synchronous variant; results are appended in
`as_completed` order (`completion`) and returned without sorting. -/
def execute
    (translate : Section → SectionWithTranslation × TranslationUsageStatsConfig)
    (completion : List Nat) (sections : List Section) :
    List SectionWithTranslation × TranslationUsageStatsConfig :=
  let results := completion.filterMap (fun i => (sections.get? i).map translate)
  (results.map Prod.fst, results.foldl (fun acc r => updateStats acc r.2) {})

/-- The chunking loop of `execute_async`: split a section's paragraphs into
runs whose `content_length` sums stay at or under `LIMIT = 1500` (a chunk is
closed before a paragraph that would overflow a non-empty chunk). -/
def chunk_paragraphs (paras : List Paragraph) : List (List Paragraph) :=
  let st := paras.foldl
    (fun (acc : List (List Paragraph) × List Paragraph × Nat) paragraph =>
      let (para_list, current_paragraphs, current_length) := acc
      let paragraph_len := Paragraph.content_length paragraph
      if current_length + paragraph_len > 1500 ∧ current_paragraphs ≠ [] then
        (para_list ++ [current_paragraphs], [paragraph], paragraph_len)
      else
        (para_list, current_paragraphs ++ [paragraph], current_length + paragraph_len))
    ([], [], 0)
  if st.2.1 ≠ [] then st.1 ++ [st.2.1] else st.1

/-- `get_result_task` of `execute_async`: translate one section, chunk by
chunk, through the external `translate_paragraphs_with_formula_id`
(parameter `translateParas`); empty sections short-circuit. -/
def get_result_task
    (translateParas : List Paragraph → List ParagraphWithTranslation × TranslationUsageStatsConfig)
    (s : Section) : SectionWithTranslation × TranslationUsageStatsConfig :=
  if s.content_length = 0 then
    ({ section_id := s.section_id
       paragraphs := []
       paragraph_ids := s.paragraph_ids
       table_ids := s.table_ids
       figure_ids := s.figure_ids
       tables := s.tables
       figures := s.figures }, {})
  else
    let para_results := (chunk_paragraphs s.paragraphs).map translateParas
    let para_rets := (para_results.map Prod.fst).flatten
    let stats := para_results.foldl (fun acc r => updateStats acc r.2) {}
    ({ section_id := s.section_id
       paragraphs := para_rets
       paragraph_ids := s.paragraph_ids
       table_ids := s.table_ids
       figure_ids := s.figure_ids
       tables := s.tables
       figures := s.figures }, stats)

/-- `execute_async`: sort sections by descending `content_length`
(`list.sort` is stable; `asyncio.gather` preserves task order), run every
task, aggregate stats, then sort the results by `section_id`. -/
def execute_async
    (translateParas : List Paragraph → List ParagraphWithTranslation × TranslationUsageStatsConfig)
    (sections : List Section) :
    List SectionWithTranslation × TranslationUsageStatsConfig :=
  let sorted := sections.mergeSort (fun a b => decide (b.content_length ≤ a.content_length))
  let results := sorted.map (get_result_task translateParas)
  let sections_with_translation := results.map Prod.fst
  let usage_stats := results.foldl (fun acc r => updateStats acc r.2) {}
  (sections_with_translation.mergeSort (fun a b => decide (a.section_id ≤ b.section_id)),
   usage_stats)

end TranslateSectionFormulaIdUseCase

/-! ## Raw recognition-result shapes (azure.ai.documentintelligence.models)

Only the attributes the embedded code reads are modelled.  Attributes that
may be `None` in the wire format are `Option`s; `bounding_regions` uses
`Option (List _)` so that the Python distinction between `None` and an
empty list is preserved. -/

/-- `DocumentSpan`. -/
structure DocumentSpan where
  offset : Int
  length : Int
deriving DecidableEq

instance : Inhabited DocumentSpan := ⟨⟨0, 0⟩⟩

/-- A bounding region: page number plus polygon (flat x,y list). -/
structure BoundingRegion where
  page_number : Int
  polygon : List PyFloat
deriving DecidableEq

/-- `DocumentFormula`. -/
structure DocumentFormula where
  kind : PyStr
  value : PyStr
  polygon : List PyFloat
deriving DecidableEq

/-- `DocumentStyle`. -/
structure DocumentStyle where
  spans : List DocumentSpan
  similar_font_family : Option PyStr
  color : Option PyStr
  font_weight : Option PyStr
  background_color : Option PyStr
deriving DecidableEq

/-- `DocumentLine` (content, polygon, spans). -/
structure DocumentLine where
  content : PyStr
  polygon : List PyFloat
  spans : List DocumentSpan
deriving DecidableEq

/-- `DocumentPage`. -/
structure DocumentPage where
  page_number : Int
  width : PyFloat
  height : PyFloat
  unit : Option PyStr
  lines : Option (List DocumentLine)
  formulas : Option (List DocumentFormula)
deriving DecidableEq

/-- `DocumentParagraph`. -/
structure DocumentParagraph where
  role : Option PyStr
  content : PyStr
  spans : List DocumentSpan
  bounding_regions : Option (List BoundingRegion)
deriving DecidableEq

/-- `DocumentCaption` (of a figure or table). -/
structure DocumentCaption where
  content : PyStr
  bounding_regions : Option (List BoundingRegion)
deriving DecidableEq

/-- `DocumentFigure`. -/
structure DocumentFigure where
  bounding_regions : Option (List BoundingRegion)
  caption : Option DocumentCaption
deriving DecidableEq

/-- `DocumentTableCell`. -/
structure DocumentTableCell where
  row_index : Int
  column_index : Int
  content : PyStr
  bounding_regions : Option (List BoundingRegion)
deriving DecidableEq

/-- `DocumentTable`. -/
structure DocumentTable where
  row_count : Int
  column_count : Int
  cells : List DocumentTableCell
  bounding_regions : Option (List BoundingRegion)
  caption : Option DocumentCaption
deriving DecidableEq

/-- Python truthiness of an `Optional[List[...]]` attribute:
`None` and `[]` are both falsy. -/
def regionsFalsy : Option (List α) → Bool
  | none => true
  | some [] => true
  | some (_ :: _) => false

/-! ## Older-generation output entities (src/domain/entities/models.py),
the ones constructed by ocr_repository.py. -/

namespace Models

/-- `Caption` entity. -/
structure Caption where
  bbox : BBox
  content : PyStr
deriving DecidableEq

/-- `TextLine` entity. -/
structure TextLine where
  text : PyStr
  inline_formulas : List PyStr
  bbox : BBox
  font : Option PyStr
  color_hex : Option PyStr
  font_weight : Option PyStr
  background_color_hex : Option PyStr
deriving DecidableEq

/-- `Figure` entity (bbox, page number, caption; the later generation adds
an optional `image_data` defaulting to `None`). -/
structure Figure where
  bbox : BBox
  page_number : Int
  caption : Caption
  image_data : Option Bytes := none
deriving DecidableEq

/-- `Cell` entity. -/
structure Cell where
  row_index : Int
  column_index : Int
  content : PyStr
  bbox : BBox
deriving DecidableEq

/-- `Table` entity. -/
structure Table where
  row_num : Int
  col_num : Int
  cells : List Cell
  bbox : BBox
  page_number : Int
  caption : Caption
  image_data : Option Bytes := none
deriving DecidableEq

end Models

/-! ## ocr_repository.py (src/ocr_module/adapters/infra/azure/ocr_repository.py) -/

namespace OcrRepository

/-- The adapter-internal `_TextLine` dataclass. -/
structure _TextLine where
  text : PyStr
  inline_formulas : List DocumentFormula
  bbox : BBox
  font : Option PyStr
  color_hex : Option PyStr
  font_weight : Option PyStr
  background_color_hex : Option PyStr
  span : DocumentSpan
deriving DecidableEq

instance : Inhabited _TextLine := ⟨⟨[], [], (0, 0, 0, 0), none, none, none, none, default⟩⟩

/-- The adapter-internal `_TextParagraph` dataclass. -/
structure _TextParagraph where
  text : PyStr
  inline_formulas : List DocumentFormula
  lines : List Models.TextLine
  bbox : BBox
  page_number : Int
deriving DecidableEq

/-- The four-key style dict built by `_get_line_style`. -/
structure StyleAttributes where
  font : Option PyStr
  color : Option PyStr
  font_weight : Option PyStr
  background_color : Option PyStr
deriving DecidableEq

/-- Python truthiness of an `Optional[str]` attribute: `None` and the empty
string are falsy. -/
def truthyStr : Option PyStr → Bool
  | none => false
  | some [] => false
  | some (_ :: _) => true

/-- A span's half-open range containing an offset. -/
def spanContains (sp : DocumentSpan) (t : Int) : Prop :=
  sp.offset ≤ t ∧ t < sp.offset + sp.length

instance (sp : DocumentSpan) (t : Int) : Decidable (spanContains sp t) :=
  inferInstanceAs (Decidable (_ ∧ _))

/-- The `binary_search_span` loop inside `_get_line_style`: returns the
index of a span whose range contains `target_offset`, or `-1`. -/
def binary_search_span_loop (spans : List DocumentSpan) (target_offset : Int)
    (left right : Int) : Int :=
  if left ≤ right then
    let mid := (left + right) / 2
    let span := spans.getD mid.toNat default
    if spanContains span target_offset then mid
    else if target_offset < span.offset then
      binary_search_span_loop spans target_offset left (mid - 1)
    else
      binary_search_span_loop spans target_offset (mid + 1) right
  else -1
termination_by (right + 1 - left).toNat
decreasing_by
  all_goals omega

/-- `binary_search_span` as called: full index range. -/
def binary_search_span (spans : List DocumentSpan) (target_offset : Int) : Int :=
  binary_search_span_loop spans target_offset 0 ((spans.length : Int) - 1)

/-- One iteration of the style loop of `_get_line_style`: if the style's
spans binary-search hit the line's start offset, overwrite every truthy
attribute. -/
def get_line_style_step (line_span : DocumentSpan) (style_attributes : StyleAttributes)
    (style : DocumentStyle) : StyleAttributes :=
  let idx := binary_search_span style.spans line_span.offset
  if idx ≠ -1 then
    let a1 := if truthyStr style.similar_font_family then
      { style_attributes with font := style.similar_font_family } else style_attributes
    let a2 := if truthyStr style.color then
      { a1 with color := style.color } else a1
    let a3 := if truthyStr style.font_weight then
      { a2 with font_weight := style.font_weight } else a2
    if truthyStr style.background_color then
      { a3 with background_color := style.background_color } else a3
  else style_attributes

/-- `_get_line_style`: visit every style in declaration order, merging
matches attribute by attribute. -/
def get_line_style (line_span : DocumentSpan) (styles : List DocumentStyle) :
    StyleAttributes :=
  styles.foldl (get_line_style_step line_span) ⟨none, none, none, none⟩

/-- Reference (specification-side) attribute resolution: the value of the
last style in declaration order that has some span containing the target
offset and the projected attribute populated (truthy); `none` when no such
style exists. -/
def last_attr (t : Int) (proj : DocumentStyle → Option PyStr) :
    List DocumentStyle → Option PyStr
  | [] => none
  | st :: rest =>
    match last_attr t proj rest with
    | some v => some v
    | none =>
      if decide (∃ sp ∈ st.spans, spanContains sp t) && truthyStr (proj st) then proj st
      else none

/-- `polygon[i] for i in range(0, len, 2)`. -/
def evenElems : List α → List α
  | [] => []
  | [x] => [x]
  | x :: _ :: rest => x :: evenElems rest

/-- `polygon[i] for i in range(1, len, 2)`. -/
def oddElems : List α → List α
  | [] => []
  | _ :: rest => evenElems rest

/-- `_get_bounding_box`: component-wise min/max over the polygon.  `none`
models the `ValueError` that Python's `min` and `max` raise when a
coordinate list is empty (a polygon with fewer than two numbers). -/
def get_bounding_box (polygon : List PyFloat) : Option BBox :=
  match evenElems polygon, oddElems polygon with
  | x :: xs, y :: ys =>
    some (xs.foldl min x, ys.foldl min y, xs.foldl max x, ys.foldl max y)
  | _, _ => none

/-- `binary_search_start` inside `_get_textlines_in_paragraph`: least index
whose line-span offset is `≥ target`, or `len(lines)`. -/
def binary_search_start_loop (lines : List _TextLine) (target : Int)
    (left right result : Int) : Int :=
  if left ≤ right then
    let mid := (left + right) / 2
    if (lines.getD mid.toNat default).span.offset ≥ target then
      binary_search_start_loop lines target left (mid - 1) mid
    else
      binary_search_start_loop lines target (mid + 1) right result
  else result
termination_by (right + 1 - left).toNat
decreasing_by
  all_goals omega

/-- `binary_search_end`: greatest index whose line-span offset is
`< target`, or `-1`. -/
def binary_search_end_loop (lines : List _TextLine) (target : Int)
    (left right result : Int) : Int :=
  if left ≤ right then
    let mid := (left + right) / 2
    if (lines.getD mid.toNat default).span.offset < target then
      binary_search_end_loop lines target (mid + 1) right mid
    else
      binary_search_end_loop lines target left (mid - 1) result
  else result
termination_by (right + 1 - left).toNat
decreasing_by
  all_goals omega

/-- `_get_textlines_in_paragraph`: slice the sorted line array between the
two binary searches over the paragraph's first span.  `none` models the
`IndexError` Python raises when the paragraph has no span. -/
def get_textlines_in_paragraph (paragraph : DocumentParagraph)
    (text_lines : List _TextLine) : Option (List _TextLine) :=
  match paragraph.spans.head? with
  | none => none
  | some paragraph_span =>
    let start_offset := paragraph_span.offset
    let end_offset := start_offset + paragraph_span.length
    let start_idx := binary_search_start_loop text_lines start_offset
      0 ((text_lines.length : Int) - 1) (text_lines.length : Int)
    let end_idx := binary_search_end_loop text_lines end_offset
      0 ((text_lines.length : Int) - 1) (-1)
    some (pySlice text_lines start_idx (end_idx + 1))

/-- `page.formulas if page.formulas else []`. -/
def pageFormulas (document_page : DocumentPage) : List DocumentFormula :=
  match document_page.formulas with
  | none => []
  | some fs => fs

/-- `page.lines or []`. -/
def pageLines (document_page : DocumentPage) : List DocumentLine :=
  match document_page.lines with
  | none => []
  | some ls => ls

/-- The `_TextLine` built for one line in `_analyze_page`, given the
current value of the page-scoped inline-formula cursor: the line's style is
resolved from `line.spans[0]` and `line.content.count(":formula:")`
formulas are sliced off the cursor position.  `none` models the
`IndexError` Python raises on a line with no spans and the `ValueError`
`_get_bounding_box` raises on a degenerate polygon. -/
def mk_text_line (styles : List DocumentStyle) (inline_formulas : List DocumentFormula)
    (current_inline_formula_idx : Nat) (line : DocumentLine) : Option _TextLine :=
  match line.spans.head? with
  | none => none
  | some span0 =>
    match get_bounding_box line.polygon with
    | none => none
    | some bbox =>
      let style := get_line_style span0 styles
      let num_formula := pyCount formulaTok line.content
      some { text := line.content
             inline_formulas :=
               (inline_formulas.drop current_inline_formula_idx).take num_formula
             bbox := bbox
             font := style.font
             color_hex := style.color
             font_weight := style.font_weight
             background_color_hex := style.background_color
             span := span0 }

/-- One iteration of the line loop of `_analyze_page`: append the built
`_TextLine` and advance the cursor by the line's token count; a raise
(`none`) aborts the remaining iterations. -/
def analyze_page_step (styles : List DocumentStyle) (inline_formulas : List DocumentFormula)
    (acc : Option (List _TextLine × Nat)) (line : DocumentLine) :
    Option (List _TextLine × Nat) :=
  match acc with
  | none => none
  | some (ls, idx) =>
    match mk_text_line styles inline_formulas idx line with
    | none => none
    | some tl => some (ls ++ [tl], idx + pyCount formulaTok line.content)

/-- `_analyze_page`: partition the page's formulas by kind, then walk the
lines in order, resolving each line's style and slicing its `:formula:`
count off the page-scoped inline-formula cursor; `none` models the raise
propagated out of the line loop. -/
def analyze_page (styles : List DocumentStyle) (document_page : DocumentPage) :
    Option (List _TextLine × List DocumentFormula × List DocumentFormula) :=
  let formulas := pageFormulas document_page
  let inline_formulas := formulas.filter (fun f => decide (f.kind = ("inline").toList))
  let display_formulas := formulas.filter (fun f => decide (f.kind = ("display").toList))
  let lines := pageLines document_page
  match lines.foldl (analyze_page_step styles inline_formulas) (some ([], 0)) with
  | none => none
  | some st => some (st.1, display_formulas, inline_formulas)

/-- Reference form of the line walk: line `k` receives exactly the slice of
inline formulas starting at the total token count of the preceding lines;
`none` as soon as some line raises. -/
def cursor_lines (styles : List DocumentStyle) (inline_formulas : List DocumentFormula) :
    Nat → List DocumentLine → Option (List _TextLine)
  | _, [] => some []
  | idx, line :: rest =>
    match mk_text_line styles inline_formulas idx line with
    | none => none
    | some tl =>
      (cursor_lines styles inline_formulas (idx + pyCount formulaTok line.content) rest).map
        (fun tls => tl :: tls)

/-- The conversion from the adapter-internal `_TextLine` to the exported
`TextLine` entity, as written inline in `_analyze_paragraph`. -/
def toModelTextLine (line : _TextLine) : Models.TextLine :=
  { text := line.text
    inline_formulas := line.inline_formulas.map DocumentFormula.value
    bbox := line.bbox
    font := line.font
    color_hex := line.color_hex
    font_weight := line.font_weight
    background_color_hex := line.background_color_hex }

/-- `_analyze_paragraph`: paragraphs without bounding regions map to the
sentinel `_TextParagraph`; otherwise the paragraph's lines are sliced out
of `text_lines` and re-joined.  (`inline_formulas`, the third Python
parameter, is unused by the source body.) -/
def analyze_paragraph (paragraph : DocumentParagraph)
    (text_lines : List _TextLine) : Option _TextParagraph :=
  match paragraph.bounding_regions with
  | none =>
    some { text := [], inline_formulas := [], lines := [], bbox := (0, 0, 0, 0), page_number := 0 }
  | some [] =>
    some { text := [], inline_formulas := [], lines := [], bbox := (0, 0, 0, 0), page_number := 0 }
  | some (r0 :: _) =>
      match get_textlines_in_paragraph paragraph text_lines with
      | none => none
      | some paragraph_text_lines =>
        match get_bounding_box r0.polygon with
        | none => none
        | some bbox =>
          some { text := (paragraph_text_lines.map _TextLine.text).flatten
                 inline_formulas :=
                   (paragraph_text_lines.map _TextLine.inline_formulas).flatten
                 lines := paragraph_text_lines.map toModelTextLine
                 bbox := bbox
                 page_number := r0.page_number }

/-- `_analyze_figure`; the image extractor is the external rasterizer
collaborator, passed as `ext`. -/
def analyze_figure (ext : Int → BBox → Option Bytes) (figure : DocumentFigure) :
    Option Models.Figure :=
  match figure.bounding_regions with
  | none =>
    some { bbox := (0, 0, 0, 0), page_number := 0
           caption := { bbox := (0, 0, 0, 0), content := [] } }
  | some [] =>
    some { bbox := (0, 0, 0, 0), page_number := 0
           caption := { bbox := (0, 0, 0, 0), content := [] } }
  | some (r0 :: _) =>
      match get_bounding_box r0.polygon with
      | none => none
      | some bbox =>
        let page_number := r0.page_number
        match figure.caption with
        | none =>
          some { bbox := bbox, page_number := page_number
                 caption := { bbox := (0, 0, 0, 0), content := [] } }
        | some cap =>
          match cap.bounding_regions with
          | none => none
          | some [] => none
          | some (c0 :: _) =>
            match get_bounding_box c0.polygon with
            | none => none
            | some cbbox =>
              some { bbox := bbox
                     page_number := page_number
                     caption := { bbox := cbbox, content := cap.content }
                     image_data := ext page_number bbox }

/-- The cell loop of `_analyze_table`: cells without (or with empty)
bounding regions are skipped with `continue`; a degenerate cell polygon
raises (`none`). -/
def analyze_table_cells : List DocumentTableCell → Option (List Models.Cell)
  | [] => some []
  | cell :: rest =>
    match cell.bounding_regions with
    | none => analyze_table_cells rest
    | some [] => analyze_table_cells rest
    | some (cr0 :: _) =>
      match get_bounding_box cr0.polygon with
      | none => none
      | some cbbox =>
        (analyze_table_cells rest).map (fun cs =>
          ({ row_index := cell.row_index
             column_index := cell.column_index
             content := cell.content
             bbox := cbbox } : Models.Cell) :: cs)

/-- `_analyze_table`; `none` models a `ValueError` raised out of
`_get_bounding_box` on a degenerate polygon. -/
def analyze_table (ext : Int → BBox → Option Bytes) (table : DocumentTable) :
    Option Models.Table :=
  match table.bounding_regions with
  | none =>
    some { row_num := 0, col_num := 0, cells := [], bbox := (0, 0, 0, 0), page_number := 0
           caption := { bbox := (0, 0, 0, 0), content := [] } }
  | some [] =>
    some { row_num := 0, col_num := 0, cells := [], bbox := (0, 0, 0, 0), page_number := 0
           caption := { bbox := (0, 0, 0, 0), content := [] } }
  | some (r0 :: _) =>
      match get_bounding_box r0.polygon with
      | none => none
      | some bbox =>
        let page_number := r0.page_number
        match analyze_table_cells table.cells with
        | none => none
        | some cells =>
          let captionOpt : Option Models.Caption := match table.caption with
            | some cap =>
              match cap.bounding_regions with
              | some (c0 :: _) =>
                (get_bounding_box c0.polygon).map
                  (fun cb => { bbox := cb, content := cap.content })
              | _ => some { bbox := (0, 0, 0, 0), content := [] }
            | none => some { bbox := (0, 0, 0, 0), content := [] }
          match captionOpt with
          | none => none
          | some caption =>
            some { row_num := table.row_count
                   col_num := table.column_count
                   cells := cells
                   bbox := bbox
                   page_number := page_number
                   caption := caption
                   image_data := ext page_number bbox }

end OcrRepository

/-! ## azure_ocr_repository1.py
(src/ocr_module/adapters/infra/azure/azure_ocr_repository1.py) -/

namespace AzureOCRRepository1

/-- `_get_bounding_box(polygon, unit)`: pixel coordinates are divided by
96, inch coordinates pass through, any other unit raises (`none`); an
empty coordinate list also raises (`ValueError` from `min`), also `none`. -/
def get_bounding_box (polygon : List PyFloat) (unit : PyStr) : Option BBox :=
  if unit = ("pixel").toList then
    match (OcrRepository.evenElems polygon).map (fun x => x / 96),
          (OcrRepository.oddElems polygon).map (fun y => y / 96) with
    | x :: xs, y :: ys =>
      some (xs.foldl min x, ys.foldl min y, xs.foldl max x, ys.foldl max y)
    | _, _ => none
  else if unit = ("inch").toList then
    match OcrRepository.evenElems polygon, OcrRepository.oddElems polygon with
    | x :: xs, y :: ys =>
      some (xs.foldl min x, ys.foldl min y, xs.foldl max x, ys.foldl max y)
    | _, _ => none
  else none

/-- `d[k].append(v)` on the page dict: `KeyError` (`none`) when the page
number is not a key. -/
def dictAppendAt (d : List (Int × List α)) (k : Int) (v : α) :
    Option (List (Int × List α)) :=
  if d.any (fun kv => kv.1 = k) then
    some (d.map (fun kv => if kv.1 = k then (kv.1, kv.2 ++ [v]) else kv))
  else none

/-- The body of the `for idx, paragraph in enumerate(paragraphs)` loop of
`get_paragraphs_in_page`, threading the page dict. -/
def get_paragraphs_in_page_loop (pages : List DocumentPage) :
    List (Nat × DocumentParagraph) → List (Int × List Paragraph) →
    Option (List (Int × List Paragraph))
  | [], d => some d
  | (idx, paragraph) :: rest, d =>
    match paragraph.bounding_regions with
    | none => get_paragraphs_in_page_loop pages rest d
    | some [] => none
    | some (r0 :: _) =>
      let page_number := r0.page_number
      match pyIndex pages (page_number - 1) with
      | none => none
      | some pg =>
        match get_bounding_box r0.polygon ((pg.unit).getD (("pixel").toList)) with
        | none => none
        | some bbox =>
          let paragraph_entity : Paragraph :=
            { paragraph_id := (idx : Int)
              role := paragraph.role
              content := paragraph.content
              bbox := bbox
              page_number := page_number }
          match dictAppendAt d page_number paragraph_entity with
          | none => none
          | some d2 => get_paragraphs_in_page_loop pages rest d2

/-- `get_paragraphs_in_page`: initialise `{1..num_pages → []}`, then walk
the paragraphs with their `enumerate` index; paragraphs whose
`bounding_regions is None` are skipped. -/
def get_paragraphs_in_page (paragraphs : List DocumentParagraph) (num_pages : Nat)
    (pages : List DocumentPage) : Option (List (Int × List Paragraph)) :=
  let init := (List.range num_pages).map (fun i => ((i : Int) + 1, ([] : List Paragraph)))
  get_paragraphs_in_page_loop pages (paragraphs.enum) init

end AzureOCRRepository1

/-! ## pylatex_generate_pdf_repository.py
(src/ocr_module/adapters/infra/pylatex/pylatex_generate_pdf_repository.py)

`pylatex.utils.escape_latex` is an external library function; it is passed
in as the parameter `esc`.  The theorems assume only that it preserves
`:formula:` occurrence counts, which holds for the real character-escaping
table (no escape output contains `:`, and no character of `:formula:` is
escaped). -/

namespace PyLatexGeneratePdfRepository

/-- The malformed-formula guard inside `convert_paragraphs_to_latex`: a
`latex_value` containing the literal `\begin{array}{}` is replaced by
`??` before substitution. -/
def sanitize_latex_value (v : PyStr) : PyStr :=
  if pyContains (("\\begin\x7barray\x7d\x7b\x7d").toList) v then ("??").toList else v

/-- `f"${formula.latex_value}$"`. -/
def wrapMath (v : PyStr) : PyStr :=
  '$' :: v ++ ['$']

/-- The `for i in range(num_formula)` substitution loop of
`convert_paragraphs_to_latex`.  Returns the rewritten content, the new
formula cursor and the number of not-enough-formulas warnings (0 or 1). -/
def subst_loop (page_formulas : List Formula) :
    Nat → PyStr → Nat → PyStr × Nat × Nat
  | 0, content, idx => (content, idx, 0)
  | n + 1, content, idx =>
    if h : idx < page_formulas.length then
      let formula := page_formulas.get ⟨idx, h⟩
      subst_loop page_formulas n
        (pyReplaceFirst formulaTok content (wrapMath (sanitize_latex_value formula.latex_value)))
        (idx + 1)
    else (content, idx, 1)

/-- The observable outcome of `convert_paragraphs_to_latex`: the rewritten
paragraphs, the final formula cursor, and the warning counters (`logger`
"Not enough formulas" warnings, and ":formula: is still in the paragraph"
warnings). -/
structure ConvertResult where
  paragraphs : List Paragraph
  current_formula_index : Nat
  not_enough_warnings : Nat
  remaining_token_warnings : Nat
deriving DecidableEq

/-- One iteration of the paragraph loop of `convert_paragraphs_to_latex`:
escape the paragraph's content, count its `:formula:` tokens, and
substitute that many formulas starting at the current cursor (stopping
early, with a warning, if the page's formulas run out). -/
def convert_step (esc : PyStr → PyStr) (page_formulas : List Formula)
    (acc : ConvertResult) (paragraph : Paragraph) : ConvertResult :=
  let content := esc paragraph.content
  let num_formula := pyCount formulaTok content
  if num_formula ≤ 0 then
    { acc with paragraphs := acc.paragraphs ++ [{ paragraph with content := content }] }
  else
    let r := subst_loop page_formulas num_formula content acc.current_formula_index
    let still := if 0 < pyCount formulaTok r.1 then 1 else 0
    { paragraphs := acc.paragraphs ++ [{ paragraph with content := r.1 }]
      current_formula_index := r.2.1
      not_enough_warnings := acc.not_enough_warnings + r.2.2
      remaining_token_warnings := acc.remaining_token_warnings + still }

/-- `convert_paragraphs_to_latex`. -/
def convert_paragraphs_to_latex (esc : PyStr → PyStr)
    (page_paragraphs : List Paragraph) (page_formulas : List Formula) : ConvertResult :=
  page_paragraphs.foldl (convert_step esc page_formulas)
    { paragraphs := [], current_formula_index := 0
      not_enough_warnings := 0, remaining_token_warnings := 0 }

/-- The wrapped sanitised replacement strings for the `m` formulas
starting at cursor position `k`. -/
def formulaReps (page_formulas : List Formula) (k m : Nat) : List PyStr :=
  ((page_formulas.drop k).take m).map
    (fun f => wrapMath (sanitize_latex_value f.latex_value))

/-- Iterated first-occurrence replacement of the token, one replacement
string at a time (the effect of the inner loop on the content). -/
def replaceAll (s : PyStr) (reps : List PyStr) : PyStr :=
  reps.foldl (fun acc r => pyReplaceFirst formulaTok acc r) s

/-- The content the paragraph step produces for a token-carrying paragraph
whose escaped content is threaded from cursor position `k`. -/
def step_content (esc : PyStr → PyStr) (page_formulas : List Formula) (k : Nat)
    (p : Paragraph) : PyStr :=
  replaceAll (esc p.content)
    (formulaReps page_formulas k
      (min (pyCount formulaTok (esc p.content)) (page_formulas.length - k)))

/-- Reference threading (specification-side): paragraph `i` has its tokens
replaced, left to right, by the next `count` unused formulas in list
order. -/
def thread_reference (esc : PyStr → PyStr) (page_formulas : List Formula) :
    Nat → List Paragraph → List Paragraph
  | _, [] => []
  | k, paragraph :: rest =>
    let content := esc paragraph.content
    let n := pyCount formulaTok content
    { paragraph with content :=
        pySubstTokens formulaTok content (formulaReps page_formulas k n) } ::
      thread_reference esc page_formulas (k + n) rest

end PyLatexGeneratePdfRepository

/-- Total `:formula:` token count of a paragraph list (on the raw,
unescaped contents). -/
def tokenSum (paras : List Paragraph) : Nat :=
  (paras.map (fun p => pyCount formulaTok p.content)).sum

/-- A concrete paragraph for the formula-threading examples (the spec's
worked example). -/
def c3para : Paragraph :=
  { paragraph_id := 0, role := none, content := ("Result: :formula: holds.").toList,
    bbox := (0, 0, 0, 0), page_number := 1 }

/-- A concrete inline formula for the formula-threading examples. -/
def c3formula : Formula :=
  { formula_id := 0, latex_value := ("x=y").toList, bbox := (0, 0, 0, 0),
    type := ("inline").toList, page_number := 1 }

/-- A paragraph that is exactly one token. -/
def c3badPara : Paragraph :=
  { c3para with content := (":formula:").toList }

/-- A formula whose `latex_value` itself contains the token. -/
def c3badFormula : Formula :=
  { c3formula with latex_value := (":formula:").toList }

/-- A concrete one-paragraph page. -/
def c9page : Page :=
  { page_number := 1, width := 1, height := 1, formulas := [], display_formulas := [],
    paragraphs := [{ paragraph_id := 0, role := none, content := ('a' :: []),
                     bbox := (0, 0, 0, 0), page_number := 1 }],
    figures := [], tables := [] }

/-- Concrete inline formulas for the C4 witness. -/
def c4f (n : Int) : DocumentFormula :=
  { kind := ("inline").toList, value := [Char.ofNat (97 + n.toNat)], polygon := [] }

/-- Line 0 of the C4 witness page: one `:formula:` token. -/
def c4line0 : DocumentLine :=
  { content := (":formula:").toList, polygon := [0, 0, 1, 1], spans := [⟨0, 9⟩] }

/-- Line 1 of the C4 witness page: two `:formula:` tokens. -/
def c4line1 : DocumentLine :=
  { content := (":formula: and :formula:").toList, polygon := [0, 1, 1, 2], spans := [⟨9, 23⟩] }

/-- A concrete two-line page: line 0 carries one `:formula:` token, line 1
carries two. -/
def c4page : DocumentPage :=
  { page_number := 1, width := 1, height := 1, unit := none
    lines := some [c4line0, c4line1]
    formulas := some [c4f 0, c4f 1, c4f 2] }

/-- `k` is the boundary index for `target` in `lines`: every earlier line
span starts before `target`, every line from `k` on starts at or after. -/
def OcrRepository.IsLB (lines : List OcrRepository._TextLine) (target : Int) (k : Nat) : Prop :=
  k ≤ lines.length ∧
  (∀ i, i < k → (lines.getD i default).span.offset < target) ∧
  (∀ i, k ≤ i → i < lines.length → target ≤ (lines.getD i default).span.offset)

/-- A style whose spans are sorted by offset but overlap: `(0,10)` covers
offsets the binary search abandons after probing `(2,1)` and `(4,1)`. -/
def c6style : DocumentStyle :=
  { spans := [⟨0, 10⟩, ⟨2, 1⟩, ⟨4, 1⟩]
    similar_font_family := some (("A").toList)
    color := none, font_weight := none, background_color := none }

/-- First overlapping style for the C6 witness: font `A`, color `C`. -/
def c6styleA : DocumentStyle :=
  { spans := [⟨0, 10⟩], similar_font_family := some (("A").toList)
    color := some (("C").toList), font_weight := none, background_color := none }

/-- Second overlapping style for the C6 witness: font `B` only. -/
def c6styleB : DocumentStyle :=
  { spans := [⟨5, 2⟩], similar_font_family := some (("B").toList)
    color := none, font_weight := none, background_color := none }

/-- A concrete text line with the given span, for the C2 witness. -/
def c2line (o l : Int) : OcrRepository._TextLine :=
  { text := ('L' :: []), inline_formulas := [], bbox := (0, 0, 0, 0)
    font := none, color_hex := none, font_weight := none, background_color_hex := none
    span := ⟨o, l⟩ }

/-- A concrete paragraph whose first span is `[0, 18)`. -/
def c2para : DocumentParagraph :=
  { role := none, content := [], spans := [⟨0, 18⟩], bounding_regions := none }

/-- A trivial concrete section, and its id-1 sibling, for the fan-out
counterexample and witness. -/
def sec0 : Section :=
  { section_id := 0, paragraphs := [], paragraph_ids := [], tables := [],
    table_ids := [], figures := [], figure_ids := [] }

/-- The id-1 sibling of `sec0`. -/
def sec1 : Section := { sec0 with section_id := 1 }

/-- A possible external per-section translation (the provider is free to
return any `SectionWithTranslation`; this one keeps the section id). -/
def idTranslate (s : Section) : SectionWithTranslation :=
  { section_id := s.section_id, paragraphs := [], paragraph_ids := s.paragraph_ids,
    tables := s.tables, table_ids := s.table_ids, figures := s.figures,
    figure_ids := s.figure_ids }

/-- A replacement block as produced by the math wrapper: `$`, an
occurrence-free body, `$`. -/
def BlockedRep (pat r : PyStr) : Prop :=
  ∃ v, r = '$' :: v ++ ['$'] ∧ pyCount pat v = 0

/-! # Theorems -/

/-- C9: `Page.to_page_with_translation` preserves `page_number`, `width`,
`height`, `formulas`, `display_formulas`, `figures` and `tables`, and its
paragraph list corresponds 1:1 and in order to the source paragraphs, each
output paragraph keeping `paragraph_id`, `role`, `content`, `bbox` and
`page_number` and getting `translation = content`. -/
theorem Page.to_page_with_translation_spec (p : Page) :
    p.to_page_with_translation.page_number = p.page_number ∧
    p.to_page_with_translation.width = p.width ∧
    p.to_page_with_translation.height = p.height ∧
    p.to_page_with_translation.formulas = p.formulas ∧
    p.to_page_with_translation.display_formulas = p.display_formulas ∧
    p.to_page_with_translation.figures = p.figures ∧
    p.to_page_with_translation.tables = p.tables ∧
    p.to_page_with_translation.paragraphs.length = p.paragraphs.length ∧
    ∀ i (hi : i < p.paragraphs.length) (hi2 : i < p.to_page_with_translation.paragraphs.length),
      (p.to_page_with_translation.paragraphs.get ⟨i, hi2⟩).paragraph_id =
          (p.paragraphs.get ⟨i, hi⟩).paragraph_id ∧
      (p.to_page_with_translation.paragraphs.get ⟨i, hi2⟩).role =
          (p.paragraphs.get ⟨i, hi⟩).role ∧
      (p.to_page_with_translation.paragraphs.get ⟨i, hi2⟩).content =
          (p.paragraphs.get ⟨i, hi⟩).content ∧
      (p.to_page_with_translation.paragraphs.get ⟨i, hi2⟩).bbox =
          (p.paragraphs.get ⟨i, hi⟩).bbox ∧
      (p.to_page_with_translation.paragraphs.get ⟨i, hi2⟩).page_number =
          (p.paragraphs.get ⟨i, hi⟩).page_number ∧
      (p.to_page_with_translation.paragraphs.get ⟨i, hi2⟩).translation =
          some (p.paragraphs.get ⟨i, hi⟩).content := by
  refine ⟨rfl, rfl, rfl, rfl, rfl, rfl, rfl, by simp [Page.to_page_with_translation], ?_⟩
  intro i hi hi2
  simp [Page.to_page_with_translation, Paragraph.to_paragraph_with_translation]

/-- C9 witness: the guarantee instantiated at a concrete one-paragraph page. -/
theorem Page.to_page_with_translation_spec_witness :
    (c9page.to_page_with_translation.paragraphs.get ⟨0, by decide⟩).translation =
      some ('a' :: []) :=
  (((((((Page.to_page_with_translation_spec c9page).2.2.2.2.2.2.2.2 0 (by decide)
    (by decide)).2).2).2).2).2).trans rfl

/-- C10: serialisation round-trips for the image-free entity types:
`from_dict (to_dict x) = x` for `Paragraph`, `ParagraphWithTranslation`
and `Formula`. -/
theorem dict_roundtrip_spec :
    (∀ p : Paragraph, Paragraph.from_dict p.to_dict = some p) ∧
    (∀ q : ParagraphWithTranslation, ParagraphWithTranslation.from_dict q.to_dict = some q) ∧
    (∀ f : Formula, Formula.from_dict f.to_dict = some f) := by
  refine ⟨?_, ?_, ?_⟩
  · rintro ⟨pid, role, c, b, pn⟩
    cases role <;> rfl
  · rintro ⟨pid, role, c, b, pn, tr⟩
    cases role <;> cases tr <;> rfl
  · rintro ⟨fid, lv, b, ty, pn⟩
    rfl

/-- C1: `GetTranslatedPageUseCase.execute` returns one page per input page;
each output page's paragraph list corresponds 1:1 and in order to the input
page's paragraphs, taking the dict entry when the paragraph id is mapped
and otherwise synthesising an identity-translated paragraph. -/
theorem GetTranslatedPageUseCase.execute_spec (pages : List Page)
    (translated_sections : List SectionWithTranslation) :
    (execute pages translated_sections).length = pages.length ∧
    List.Forall₂ (fun (op : PageWithTranslation) (page : Page) =>
        op.paragraphs.length = page.paragraphs.length ∧
        List.Forall₂ (fun (q : ParagraphWithTranslation) (p : Paragraph) =>
            match dictGetInt (get_page_paragraphs translated_sections) p.paragraph_id with
            | some m => q = m
            | none => q = { paragraph_id := p.paragraph_id, role := p.role,
                            content := p.content, bbox := p.bbox,
                            page_number := p.page_number, translation := some p.content })
          op.paragraphs page.paragraphs)
      (execute pages translated_sections) pages := by
  constructor
  · simp [execute]
  · rw [execute]
    rw [List.forall₂_map_left_iff, List.forall₂_same]
    intro page _
    constructor
    · simp [convert_page_to_page_with_translation]
    · rw [convert_page_to_page_with_translation]
      rw [List.forall₂_map_left_iff, List.forall₂_same]
      intro p _
      cases h : dictGetInt (get_page_paragraphs translated_sections) p.paragraph_id <;>
        simp [h]

/-- C8 (counterexample): in the page-grouping path
`get_paragraphs_in_page`, a paragraph whose `bounding_regions` is `None`
is silently dropped — no zero-area sentinel entity is substituted — while
its sibling keeps its enumeration id and is processed normally.  The page
bucket holds one entity instead of two and none with bbox `(0,0,0,0)`,
page 0. -/
theorem AzureOCRRepository1.get_paragraphs_in_page_drops_missing_region :
    AzureOCRRepository1.get_paragraphs_in_page
      [{ role := none, content := ('x' :: []), spans := [], bounding_regions := none },
       { role := none, content := ('y' :: []), spans := [],
         bounding_regions := some [{ page_number := 1, polygon := [0, 0, 2, 2] }] }]
      1
      [{ page_number := 1, width := (17 : ℚ) / 2, height := 11,
         unit := some (("inch").toList), lines := none, formulas := none }] =
    some [(1, [{ paragraph_id := 1, role := none, content := ('y' :: []),
                 bbox := (0, 0, 2, 2), page_number := 1 }])] := by
  rfl

/-- C8 (amended): entities that lack geometry (bounding regions absent or
empty) are given the zero-area sentinel bbox and page number 0, rather than
failing, by `_analyze_paragraph`, `_analyze_figure` and `_analyze_table`;
the page-grouping path is excluded (it drops such paragraphs, see the
counterexample). -/
theorem OcrRepository.missing_region_sentinel_spec :
    (∀ (p : DocumentParagraph) (text_lines : List OcrRepository._TextLine),
      regionsFalsy p.bounding_regions = true →
      OcrRepository.analyze_paragraph p text_lines =
        some { text := [], inline_formulas := [], lines := [],
               bbox := (0, 0, 0, 0), page_number := 0 }) ∧
    (∀ (ext : Int → BBox → Option Bytes) (figure : DocumentFigure),
      regionsFalsy figure.bounding_regions = true →
      OcrRepository.analyze_figure ext figure =
        some { bbox := (0, 0, 0, 0), page_number := 0
               caption := { bbox := (0, 0, 0, 0), content := [] } }) ∧
    (∀ (ext : Int → BBox → Option Bytes) (table : DocumentTable),
      regionsFalsy table.bounding_regions = true →
      OcrRepository.analyze_table ext table =
        some { row_num := 0, col_num := 0, cells := [], bbox := (0, 0, 0, 0), page_number := 0
               caption := { bbox := (0, 0, 0, 0), content := [] } }) := by
  refine ⟨?_, ?_, ?_⟩
  · intro p text_lines hreg
    match hr : p.bounding_regions with
    | none => simp [OcrRepository.analyze_paragraph, hr]
    | some [] => simp [OcrRepository.analyze_paragraph, hr]
    | some (r :: rs) => rw [hr] at hreg; cases hreg
  · intro ext figure hreg
    match hr : figure.bounding_regions with
    | none => simp [OcrRepository.analyze_figure, hr]
    | some [] => simp [OcrRepository.analyze_figure, hr]
    | some (r :: rs) => rw [hr] at hreg; cases hreg
  · intro ext table hreg
    match hr : table.bounding_regions with
    | none => simp [OcrRepository.analyze_table, hr]
    | some [] => simp [OcrRepository.analyze_table, hr]
    | some (r :: rs) => rw [hr] at hreg; cases hreg

/-- C8 witness: the sentinel guarantee instantiated at concrete regionless
entities. -/
theorem OcrRepository.missing_region_sentinel_spec_witness :
    OcrRepository.analyze_paragraph
        { role := none, content := ('x' :: []), spans := [], bounding_regions := none } [] =
      some { text := [], inline_formulas := [], lines := [],
             bbox := (0, 0, 0, 0), page_number := 0 } ∧
    OcrRepository.analyze_figure (fun _ _ => none)
        { bounding_regions := some [], caption := none } =
      some { bbox := (0, 0, 0, 0), page_number := 0
             caption := { bbox := (0, 0, 0, 0), content := [] } } :=
  ⟨OcrRepository.missing_region_sentinel_spec.1 _ [] rfl,
   (OcrRepository.missing_region_sentinel_spec.2.1) _ _ rfl⟩

/-- A raise aborts the rest of the line loop of `_analyze_page`. -/
theorem OcrRepository.analyze_page_foldl_none (styles : List DocumentStyle)
    (inline_formulas : List DocumentFormula) :
    ∀ (lines : List DocumentLine),
      lines.foldl (OcrRepository.analyze_page_step styles inline_formulas) none = none := by
  intro lines
  induction lines with
  | nil => rfl
  | cons l ls ih => rw [List.foldl_cons]; exact ih

/-- The line loop of `_analyze_page` equals the reference cursor walk, for
any starting accumulator (both raise on the same pages). -/
theorem OcrRepository.analyze_page_loop_eq (styles : List DocumentStyle)
    (inline_formulas : List DocumentFormula) :
    ∀ (lines : List DocumentLine) (accL : List OcrRepository._TextLine) (idx : Nat),
      lines.foldl (OcrRepository.analyze_page_step styles inline_formulas)
          (some (accL, idx)) =
        (OcrRepository.cursor_lines styles inline_formulas idx lines).map
          (fun tls => (accL ++ tls,
            idx + ((lines.map fun l => pyCount formulaTok l.content).sum))) := by
  intro lines
  induction lines with
  | nil => intro accL idx; simp [OcrRepository.cursor_lines]
  | cons l ls ih =>
    intro accL idx
    rw [List.foldl_cons]
    cases hmk : OcrRepository.mk_text_line styles inline_formulas idx l with
    | none =>
      rw [show OcrRepository.analyze_page_step styles inline_formulas (some (accL, idx)) l =
          none from by simp [OcrRepository.analyze_page_step, hmk]]
      rw [OcrRepository.analyze_page_foldl_none]
      simp [OcrRepository.cursor_lines, hmk]
    | some tl =>
      rw [show OcrRepository.analyze_page_step styles inline_formulas (some (accL, idx)) l =
          some (accL ++ [tl], idx + pyCount formulaTok l.content) from
        by simp [OcrRepository.analyze_page_step, hmk]]
      rw [ih]
      cases hc : OcrRepository.cursor_lines styles inline_formulas
          (idx + pyCount formulaTok l.content) ls with
      | none => simp [OcrRepository.cursor_lines, hmk, hc]
      | some tls =>
        simp [OcrRepository.cursor_lines, hmk, hc, Nat.add_assoc]

/-- Element `k` of a successful reference cursor walk is the (successfully)
built `_TextLine` at cursor position `idx +` (token counts of the first `k`
lines). -/
theorem OcrRepository.cursor_lines_get? (styles : List DocumentStyle)
    (inline_formulas : List DocumentFormula) :
    ∀ (lines : List DocumentLine) (idx : Nat) (tls : List OcrRepository._TextLine),
      OcrRepository.cursor_lines styles inline_formulas idx lines = some tls →
      ∀ (k : Nat),
        tls.get? k = (lines.get? k).bind (fun ln =>
          OcrRepository.mk_text_line styles inline_formulas
            (idx + (((lines.take k).map fun l => pyCount formulaTok l.content).sum)) ln) := by
  intro lines
  induction lines with
  | nil =>
    intro idx tls h k
    simp only [OcrRepository.cursor_lines, Option.some.injEq] at h
    subst h
    simp
  | cons l ls ih =>
    intro idx tls h k
    simp only [OcrRepository.cursor_lines] at h
    cases hmk : OcrRepository.mk_text_line styles inline_formulas idx l with
    | none => rw [hmk] at h; cases h
    | some tl =>
      rw [hmk] at h
      cases hc : OcrRepository.cursor_lines styles inline_formulas
          (idx + pyCount formulaTok l.content) ls with
      | none => rw [hc] at h; cases h
      | some tls2 =>
        rw [hc] at h
        simp only [Option.map_some', Option.some.injEq] at h
        subst h
        cases k with
        | zero => simpa using hmk.symm
        | succ k =>
          simpa [Nat.add_assoc] using ih (idx + pyCount formulaTok l.content) tls2 hc k

/-- A successful reference cursor walk yields one `_TextLine` per line. -/
theorem OcrRepository.cursor_lines_length (styles : List DocumentStyle)
    (inline_formulas : List DocumentFormula) :
    ∀ (lines : List DocumentLine) (idx : Nat) (tls : List OcrRepository._TextLine),
      OcrRepository.cursor_lines styles inline_formulas idx lines = some tls →
      tls.length = lines.length := by
  intro lines
  induction lines with
  | nil =>
    intro idx tls h
    simp only [OcrRepository.cursor_lines, Option.some.injEq] at h
    subst h
    rfl
  | cons l ls ih =>
    intro idx tls h
    simp only [OcrRepository.cursor_lines] at h
    cases hmk : OcrRepository.mk_text_line styles inline_formulas idx l with
    | none => rw [hmk] at h; cases h
    | some tl =>
      rw [hmk] at h
      cases hc : OcrRepository.cursor_lines styles inline_formulas
          (idx + pyCount formulaTok l.content) ls with
      | none => rw [hc] at h; cases h
      | some tls2 =>
        rw [hc] at h
        simp only [Option.map_some', Option.some.injEq] at h
        subst h
        simp [ih _ _ hc]

/-- The `inline_formulas` field of a successfully built `_TextLine` is the
cursor slice. -/
theorem OcrRepository.mk_text_line_inline_formulas (styles : List DocumentStyle)
    (inline_formulas : List DocumentFormula) (idx : Nat) (line : DocumentLine)
    (tl : OcrRepository._TextLine)
    (h : OcrRepository.mk_text_line styles inline_formulas idx line = some tl) :
    tl.inline_formulas =
      (inline_formulas.drop idx).take (pyCount formulaTok line.content) := by
  simp only [OcrRepository.mk_text_line] at h
  cases hsp : line.spans.head? with
  | none => rw [hsp] at h; cases h
  | some sp =>
    rw [hsp] at h
    cases hbb : OcrRepository.get_bounding_box line.polygon with
    | none => rw [hbb] at h; cases h
    | some bbox =>
      rw [hbb] at h
      simp only [Option.some.injEq] at h
      subst h
      rfl

/-- C4: whenever `_analyze_page` returns (rather than raising on a line
with no spans or a degenerate polygon), it has assigned inline formulas to
lines through a page-scoped monotonically increasing cursor: one
`_TextLine` per page line; the returned inline-formula list is the page's
formulas of kind `inline`, in page order; and the `_TextLine` for line `k`
holds exactly the slice of that list starting at the total `:formula:`
count of the preceding lines, of length equal to line `k`'s own token
count.  (In particular no formula position is handed to two different lines
and the assignment follows page order.) -/
theorem OcrRepository.analyze_page_cursor_spec (styles : List DocumentStyle)
    (document_page : DocumentPage) (tls : List OcrRepository._TextLine)
    (display_formulas inline_formulas : List DocumentFormula)
    (hsucc : OcrRepository.analyze_page styles document_page =
      some (tls, display_formulas, inline_formulas)) :
    tls.length = (OcrRepository.pageLines document_page).length ∧
    inline_formulas = (OcrRepository.pageFormulas document_page).filter
      (fun f => decide (f.kind = ("inline").toList)) ∧
    ∀ (k : Nat) (tl : OcrRepository._TextLine) (ln : DocumentLine),
      tls.get? k = some tl →
      (OcrRepository.pageLines document_page).get? k = some ln →
      tl.inline_formulas =
        ((inline_formulas.drop
            ((((OcrRepository.pageLines document_page).take k).map
              fun l => pyCount formulaTok l.content).sum)).take
          (pyCount formulaTok ln.content)) := by
  simp only [OcrRepository.analyze_page] at hsucc
  rw [OcrRepository.analyze_page_loop_eq] at hsucc
  cases hc : OcrRepository.cursor_lines styles
      ((OcrRepository.pageFormulas document_page).filter
        (fun f => decide (f.kind = ("inline").toList)))
      0 (OcrRepository.pageLines document_page) with
  | none => rw [hc] at hsucc; cases hsucc
  | some tls0 =>
    rw [hc] at hsucc
    simp only [Option.map_some', List.nil_append, Option.some.injEq, Prod.mk.injEq] at hsucc
    obtain ⟨htls, hdisp, hinl⟩ := hsucc
    subst htls
    subst hinl
    refine ⟨OcrRepository.cursor_lines_length _ _ _ _ _ hc, rfl, ?_⟩
    intro k tl ln htl hln
    have hk := OcrRepository.cursor_lines_get? _ _ _ _ _ hc k
    rw [htl, hln] at hk
    simp only [Option.some_bind] at hk
    have := OcrRepository.mk_text_line_inline_formulas _ _ _ _ _ hk.symm
    simpa using this

/-- C4 witness: the concrete page analyses without a raise, and its line 1
receives exactly formulas 1 and 2 (the cursor skipped line 0's single
token). -/
theorem OcrRepository.analyze_page_cursor_spec_witness :
    ((OcrRepository.analyze_page [] c4page).map (fun st =>
        (st.1.get? 1).map OcrRepository._TextLine.inline_formulas)) =
      some (some [c4f 1, c4f 2]) := by
  cases hsucc : OcrRepository.analyze_page [] c4page with
  | none =>
    have hne : OcrRepository.analyze_page [] c4page ≠ none := by
      simp [OcrRepository.analyze_page, OcrRepository.pageLines, OcrRepository.pageFormulas,
        OcrRepository.analyze_page_step, OcrRepository.mk_text_line,
        OcrRepository.get_bounding_box, OcrRepository.evenElems, OcrRepository.oddElems,
        c4page, c4f, c4line0, c4line1, pyCount, formulaTok]
    exact absurd hsucc hne
  | some st =>
    obtain ⟨tls, disp, inl⟩ := st
    obtain ⟨hlen, hinl, hchar⟩ :=
      OcrRepository.analyze_page_cursor_spec [] c4page tls disp inl hsucc
    have hlines2 : (OcrRepository.pageLines c4page).length = 2 := by
      simp [OcrRepository.pageLines, c4page]
    have hln : (OcrRepository.pageLines c4page).get? 1 = some c4line1 := by
      simp [OcrRepository.pageLines, c4page]
    have h1lt : 1 < tls.length := by rw [hlen, hlines2]; omega
    have htl : tls.get? 1 = some (tls.get ⟨1, h1lt⟩) := List.get?_eq_get h1lt
    have hval := hchar 1 (tls.get ⟨1, h1lt⟩) c4line1 htl hln
    have hinlc : inl = [c4f 0, c4f 1, c4f 2] := by
      rw [hinl]
      simp [OcrRepository.pageFormulas, c4page, c4f]
    have hval2 : (tls.get ⟨1, h1lt⟩).inline_formulas = [c4f 1, c4f 2] := by
      rw [hval, hinlc]
      simp [OcrRepository.pageLines, c4page, c4line0, c4line1, pyCount, formulaTok]
    simp only [Option.map_some']
    rw [htl, Option.map_some', hval2]

/-- A boundary index exists for every target when the lines are sorted by
span offset. -/
theorem OcrRepository.exists_lb (target : Int) :
    ∀ (lines : List OcrRepository._TextLine),
      lines.Pairwise (fun a b => a.span.offset ≤ b.span.offset) →
      ∃ k, OcrRepository.IsLB lines target k := by
  intro lines
  induction lines with
  | nil => intro _; exact ⟨0, by simp [OcrRepository.IsLB], by simp, by simp⟩
  | cons a l ih =>
    intro hp
    rw [List.pairwise_cons] at hp
    obtain ⟨ha, hl⟩ := hp
    obtain ⟨k, hk1, hk2, hk3⟩ := ih hl
    by_cases hcase : a.span.offset < target
    · refine ⟨k + 1, by simpa using hk1, ?_, ?_⟩
      · intro i hi
        cases i with
        | zero => simpa using hcase
        | succ j => simpa using hk2 j (by omega)
      · intro i hi hlen
        cases i with
        | zero => omega
        | succ j => simpa using hk3 j (by omega) (by simpa using hlen)
    · refine ⟨0, by simp, by simp, ?_⟩
      intro i _ hlen
      cases i with
      | zero => simpa using not_lt.mp hcase
      | succ j =>
        have hmem : l.getD j default ∈ l := by
          rw [List.getD_eq_getElem?_getD]
          rw [List.getElem?_eq_getElem (by simpa using hlen)]
          exact List.getElem_mem _
        calc target ≤ a.span.offset := not_lt.mp hcase
          _ ≤ (l.getD j default).span.offset := ha _ hmem
          _ = ((a :: l).getD (j + 1) default).span.offset := by simp

/-- The `binary_search_start` loop returns the boundary index, from any
loop state satisfying its invariant. -/
theorem OcrRepository.binary_search_start_loop_eq
    (lines : List OcrRepository._TextLine) (target : Int) (k : Nat)
    (hk : OcrRepository.IsLB lines target k) :
    ∀ (left right result : Int), 0 ≤ left → left ≤ (k : Int) →
      (k : Int) ≤ result → result ≤ (lines.length : Int) → right < (lines.length : Int) →
      (∀ i : Int, (k : Int) ≤ i → i < result → left ≤ i ∧ i ≤ right) →
      OcrRepository.binary_search_start_loop lines target left right result = k := by
  obtain ⟨hklen, hlt, hge⟩ := hk
  intro left right result
  induction left, right, result using OcrRepository.binary_search_start_loop.induct lines target with
  | case1 left right result hlr mid hif ih =>
    intro h0 hlk hkr hrl hrlen hwin
    rw [OcrRepository.binary_search_start_loop]
    simp only [if_pos hlr, if_pos hif]
    have hmidlo : left ≤ mid := by omega
    have hmidhi : mid ≤ right := by omega
    have hkmid : (k : Int) ≤ mid := by
      by_contra hc
      push_neg at hc
      have : (lines.getD mid.toNat default).span.offset < target :=
        hlt mid.toNat (by omega)
      omega
    exact ih (by omega) hlk hkmid (by omega) (by omega)
      (fun i hik hires => ⟨by omega, by omega⟩)
  | case2 left right result hlr mid hif ih =>
    intro h0 hlk hkr hrl hrlen hwin
    rw [OcrRepository.binary_search_start_loop]
    simp only [if_pos hlr, if_neg hif]
    have hmidlo : left ≤ mid := by omega
    have hmidhi : mid ≤ right := by omega
    have hmidk : mid < (k : Int) := by
      by_contra hc
      push_neg at hc
      have : target ≤ (lines.getD mid.toNat default).span.offset :=
        hge mid.toNat (by omega) (by omega)
      omega
    refine ih (by omega) (by omega) hkr hrl hrlen ?_
    intro i hik hires
    have := hwin i hik hires
    exact ⟨by omega, by omega⟩
  | case3 left right result hlr =>
    intro h0 hlk hkr hrl hrlen hwin
    rw [OcrRepository.binary_search_start_loop]
    simp only [if_neg hlr]
    by_contra hc
    have hne : result ≠ (k : Int) := fun h => hc (by omega)
    have hklt : (k : Int) < result := by omega
    have := hwin (k : Int) (by omega) hklt
    omega

/-- The `binary_search_end` loop returns the boundary index minus one, from
any loop state satisfying its invariant. -/
theorem OcrRepository.binary_search_end_loop_eq
    (lines : List OcrRepository._TextLine) (target : Int) (k : Nat)
    (hk : OcrRepository.IsLB lines target k) :
    ∀ (left right result : Int), 0 ≤ left → result < left →
      result ≤ (k : Int) - 1 → (-1) ≤ result → right < (lines.length : Int) →
      (∀ i : Int, result < i → i ≤ (k : Int) - 1 → left ≤ i ∧ i ≤ right) →
      OcrRepository.binary_search_end_loop lines target left right result = (k : Int) - 1 := by
  obtain ⟨hklen, hlt, hge⟩ := hk
  intro left right result
  induction left, right, result using OcrRepository.binary_search_end_loop.induct lines target with
  | case1 left right result hlr mid hif ih =>
    intro h0 hresl hresk hresm1 hrlen hwin
    rw [OcrRepository.binary_search_end_loop]
    simp only [if_pos hlr, if_pos hif]
    have hmidlo : left ≤ mid := by omega
    have hmidhi : mid ≤ right := by omega
    have hmidk : mid < (k : Int) := by
      by_contra hc
      push_neg at hc
      have : target ≤ (lines.getD mid.toNat default).span.offset :=
        hge mid.toNat (by omega) (by omega)
      omega
    refine ih (by omega) (by omega) (by omega) (by omega) hrlen ?_
    intro i hi1 hi2
    have := hwin i (by omega) hi2
    exact ⟨by omega, by omega⟩
  | case2 left right result hlr mid hif ih =>
    intro h0 hresl hresk hresm1 hrlen hwin
    rw [OcrRepository.binary_search_end_loop]
    simp only [if_pos hlr, if_neg hif]
    have hmidlo : left ≤ mid := by omega
    have hmidhi : mid ≤ right := by omega
    have hkmid : (k : Int) ≤ mid := by
      by_contra hc
      push_neg at hc
      have : (lines.getD mid.toNat default).span.offset < target :=
        hlt mid.toNat (by omega)
      omega
    refine ih h0 hresl hresk hresm1 (by omega) ?_
    intro i hi1 hi2
    have := hwin i hi1 hi2
    exact ⟨by omega, by omega⟩
  | case3 left right result hlr =>
    intro h0 hresl hresk hresm1 hrlen hwin
    rw [OcrRepository.binary_search_end_loop]
    simp only [if_neg hlr]
    by_contra hc
    have hklt : result < (k : Int) - 1 := by omega
    have := hwin ((k : Int) - 1) hklt (by omega)
    omega

/-- `(xs.take b).drop a` equals a filter whenever the predicate holds at
exactly the indices of `[a, b)`. -/
theorem OcrRepository.drop_take_eq_filter {α : Type} (dflt : α) (p : α → Bool) :
    ∀ (xs : List α) (a b : Nat),
      (∀ i, i < xs.length → (p (xs.getD i dflt) = true ↔ (a ≤ i ∧ i < b))) →
      (xs.take b).drop a = xs.filter p := by
  intro xs
  induction xs with
  | nil => intro a b _; simp
  | cons x xs ih =>
    intro a b hidx
    cases b with
    | zero =>
      have hx : p x = false := by
        have := hidx 0 (by simp)
        simp at this
        simpa using this
      have hrest : xs.filter p = [] := by
        have := ih a 0 (fun i hi => by
          have := hidx (i + 1) (by simpa using hi)
          simpa using this)
        simpa using this.symm
      simp [List.filter_cons, hx, hrest]
    | succ b =>
      cases a with
      | zero =>
        have hx : p x = true := by
          have := hidx 0 (by simp)
          simpa using this
        have hrest := ih 0 b (fun i hi => by
          have := hidx (i + 1) (by simpa using hi)
          simpa [Nat.succ_lt_succ_iff] using this)
        simp [List.filter_cons, hx]
        simpa using hrest
      | succ a =>
        have hx : p x = false := by
          have := hidx 0 (by simp)
          simp at this
          simpa using this
        have hrest := ih a b (fun i hi => by
          have := hidx (i + 1) (by simpa using hi)
          simpa [Nat.succ_lt_succ_iff, Nat.succ_le_succ_iff] using this)
        simp [List.filter_cons, hx]
        simpa using hrest

/-- C2: for text lines sorted by span offset (and with non-overlapping
spans) and a paragraph whose first span is `[s, s+len)`,
`_get_textlines_in_paragraph` returns exactly the lines whose span offset
lies in `[s, s+len)`, in order (the contiguous slice). -/
theorem OcrRepository.get_textlines_in_paragraph_spec
    (paragraph : DocumentParagraph) (text_lines : List OcrRepository._TextLine)
    (sp : DocumentSpan) (hsp : paragraph.spans.head? = some sp)
    (hsorted : text_lines.Pairwise (fun a b => a.span.offset ≤ b.span.offset))
    (hnovl : text_lines.Pairwise (fun a b => a.span.offset + a.span.length ≤ b.span.offset)) :
    OcrRepository.get_textlines_in_paragraph paragraph text_lines =
      some (text_lines.filter (fun ln =>
        decide (sp.offset ≤ ln.span.offset ∧ ln.span.offset < sp.offset + sp.length))) := by
  obtain ⟨ks, hks⟩ := OcrRepository.exists_lb sp.offset text_lines hsorted
  obtain ⟨ke, hke⟩ := OcrRepository.exists_lb (sp.offset + sp.length) text_lines hsorted
  have hstart := OcrRepository.binary_search_start_loop_eq text_lines sp.offset ks hks
    0 ((text_lines.length : Int) - 1) (text_lines.length : Int)
    (by omega) (by exact_mod_cast Int.ofNat_nonneg ks)
    (by exact_mod_cast hks.1) (by omega) (by omega)
    (fun i h1 h2 => ⟨by omega, by omega⟩)
  have hend := OcrRepository.binary_search_end_loop_eq text_lines (sp.offset + sp.length) ke hke
    0 ((text_lines.length : Int) - 1) (-1)
    (by omega) (by omega) (by omega) (by omega) (by omega)
    (fun i h1 h2 => by
      have : (ke : Int) ≤ (text_lines.length : Int) := by exact_mod_cast hke.1
      exact ⟨by omega, by omega⟩)
  rw [OcrRepository.get_textlines_in_paragraph, hsp]
  show some (pySlice text_lines
      (OcrRepository.binary_search_start_loop text_lines sp.offset
        0 ((text_lines.length : Int) - 1) (text_lines.length : Int))
      ((OcrRepository.binary_search_end_loop text_lines (sp.offset + sp.length)
        0 ((text_lines.length : Int) - 1) (-1)) + 1)) = _
  rw [hstart, hend]
  rw [pySlice]
  rw [show ((ke : Int) - 1 + 1).toNat = ke by omega]
  rw [show ((ks : Int)).toNat = ks by omega]
  refine congrArg some ?_
  refine OcrRepository.drop_take_eq_filter default _ text_lines ks ke ?_
  intro i hi
  obtain ⟨hks1, hks2, hks3⟩ := hks
  obtain ⟨hke1, hke2, hke3⟩ := hke
  simp only [decide_eq_true_eq]
  constructor
  · rintro ⟨hlow, hhigh⟩
    constructor
    · by_contra hc
      push_neg at hc
      have := hks2 i hc
      omega
    · by_contra hc
      push_neg at hc
      have := hke3 i hc hi
      omega
  · rintro ⟨h1, h2⟩
    exact ⟨hks3 i h1 hi, hke2 i h2⟩

/-- Whatever `binary_search_span` returns, when it is not `-1` it is the
index of a span whose range contains the target offset. -/
theorem OcrRepository.binary_search_span_loop_mem (spans : List DocumentSpan) (t : Int) :
    ∀ left right : Int, 0 ≤ left → right < (spans.length : Int) →
      OcrRepository.binary_search_span_loop spans t left right ≠ -1 →
      ∃ m : Nat, m < spans.length ∧
        OcrRepository.binary_search_span_loop spans t left right = (m : Int) ∧
        OcrRepository.spanContains (spans.getD m default) t := by
  intro left right
  induction left, right using OcrRepository.binary_search_span_loop.induct spans t with
  | case1 left right hlr mid span hcont =>
    intro h0 hrlen _
    rw [OcrRepository.binary_search_span_loop]
    simp only [if_pos hlr, if_pos hcont]
    exact ⟨mid.toNat, by omega, by omega, hcont⟩
  | case2 left right hlr mid span hcont hlt ih =>
    intro h0 hrlen hne
    rw [OcrRepository.binary_search_span_loop] at hne ⊢
    simp only [if_pos hlr, if_neg hcont, if_pos hlt] at hne ⊢
    exact ih h0 (by omega) hne
  | case3 left right hlr mid span hcont hlt ih =>
    intro h0 hrlen hne
    rw [OcrRepository.binary_search_span_loop] at hne ⊢
    simp only [if_pos hlr, if_neg hcont, if_neg hlt] at hne ⊢
    exact ih (by omega) hrlen hne
  | case4 left right hlr =>
    intro h0 hrlen hne
    rw [OcrRepository.binary_search_span_loop] at hne
    simp only [if_neg hlr] at hne
    exact absurd rfl hne

/-- For sorted, non-overlapping spans, `binary_search_span` finds a
containing span whenever its index lies in the searched window. -/
theorem OcrRepository.binary_search_span_loop_found (spans : List DocumentSpan) (t : Int)
    (hsort : spans.Pairwise (fun a b => a.offset ≤ b.offset))
    (hnov : spans.Pairwise (fun a b => a.offset + a.length ≤ b.offset))
    (j : Nat) (hj : j < spans.length)
    (hcontj : OcrRepository.spanContains (spans.getD j default) t) :
    ∀ left right : Int, 0 ≤ left → left ≤ (j : Int) → (j : Int) ≤ right →
      right < (spans.length : Int) →
      OcrRepository.binary_search_span_loop spans t left right ≠ -1 := by
  have hmono : ∀ i1 i2 : Nat, i1 < i2 → i2 < spans.length →
      (spans.getD i1 default).offset ≤ (spans.getD i2 default).offset := by
    intro i1 i2 h12 h2
    have h1 : i1 < spans.length := by omega
    rw [List.getD_eq_getElem _ _ h1, List.getD_eq_getElem _ _ h2]
    exact List.pairwise_iff_getElem.mp hsort i1 i2 h1 h2 h12
  have hnovI : ∀ i1 i2 : Nat, i1 < i2 → i2 < spans.length →
      (spans.getD i1 default).offset + (spans.getD i1 default).length ≤
        (spans.getD i2 default).offset := by
    intro i1 i2 h12 h2
    have h1 : i1 < spans.length := by omega
    rw [List.getD_eq_getElem _ _ h1, List.getD_eq_getElem _ _ h2]
    exact List.pairwise_iff_getElem.mp hnov i1 i2 h1 h2 h12
  intro left right
  induction left, right using OcrRepository.binary_search_span_loop.induct spans t with
  | case1 left right hlr mid span hcont =>
    intro h0 hlj hjr hrlen
    rw [OcrRepository.binary_search_span_loop]
    simp only [if_pos hlr, if_pos hcont]
    omega
  | case2 left right hlr mid span hcont hlt ih =>
    intro h0 hlj hjr hrlen
    rw [OcrRepository.binary_search_span_loop]
    simp only [if_pos hlr, if_neg hcont, if_pos hlt]
    have hlt2 : t < (spans.getD mid.toNat default).offset := hlt
    have hjmid : (j : Int) < mid := by
      rcases lt_trichotomy (j : Int) mid with h | h | h
      · exact h
      · exfalso
        apply hcont
        show OcrRepository.spanContains (spans.getD mid.toNat default) t
        have heq : mid.toNat = j := by omega
        rw [heq]
        exact hcontj
      · exfalso
        have hmm : (spans.getD mid.toNat default).offset ≤
            (spans.getD j default).offset := hmono mid.toNat j (by omega) hj
        obtain ⟨hc1, hc2⟩ := hcontj
        omega
    exact ih h0 hlj (by omega) (by omega)
  | case3 left right hlr mid span hcont hlt ih =>
    intro h0 hlj hjr hrlen
    rw [OcrRepository.binary_search_span_loop]
    simp only [if_pos hlr, if_neg hcont, if_neg hlt]
    have hmid0 : 0 ≤ mid := by omega
    have hmidlen : mid.toNat < spans.length := by omega
    have hge2 : (spans.getD mid.toNat default).offset ≤ t := not_lt.mp hlt
    have hcont2 : ¬ ((spans.getD mid.toNat default).offset ≤ t ∧
        t < (spans.getD mid.toNat default).offset + (spans.getD mid.toNat default).length) :=
      hcont
    have hmidj : mid < (j : Int) := by
      rcases lt_trichotomy mid (j : Int) with h | h | h
      · exact h
      · exfalso
        apply hcont
        show OcrRepository.spanContains (spans.getD mid.toNat default) t
        have heq : mid.toNat = j := by omega
        rw [heq]
        exact hcontj
      · exfalso
        have hmm : (spans.getD j default).offset + (spans.getD j default).length ≤
            (spans.getD mid.toNat default).offset := hnovI j mid.toNat (by omega) hmidlen
        obtain ⟨hc1, hc2⟩ := hcontj
        omega
    exact ih (by omega) (by omega) hjr hrlen
  | case4 left right hlr =>
    intro h0 hlj hjr hrlen
    omega

/-- Under the sorted non-overlap assumption, `binary_search_span` hits iff
some span of the style contains the offset. -/
theorem OcrRepository.binary_search_span_iff (spans : List DocumentSpan) (t : Int)
    (hsort : spans.Pairwise (fun a b => a.offset ≤ b.offset))
    (hnov : spans.Pairwise (fun a b => a.offset + a.length ≤ b.offset)) :
    OcrRepository.binary_search_span spans t ≠ -1 ↔
      ∃ sp ∈ spans, OcrRepository.spanContains sp t := by
  constructor
  · intro hne
    obtain ⟨m, hm, _, hcont⟩ := OcrRepository.binary_search_span_loop_mem spans t
      0 ((spans.length : Int) - 1) (by omega) (by omega) hne
    refine ⟨spans.getD m default, ?_, hcont⟩
    rw [List.getD_eq_getElem _ _ hm]
    exact List.getElem_mem _
  · rintro ⟨sp, hmem, hcont⟩
    obtain ⟨j, hj, hsp⟩ := List.getElem_of_mem hmem
    refine OcrRepository.binary_search_span_loop_found spans t hsort hnov j hj ?_
      0 ((spans.length : Int) - 1) (by omega) (by omega) (by omega) (by omega)
    rw [List.getD_eq_getElem _ _ hj, hsp]
    exact hcont

/-- The attribute-level effect of one style-loop iteration. -/
theorem OcrRepository.get_line_style_step_fields (line_span : DocumentSpan)
    (acc : OcrRepository.StyleAttributes) (style : DocumentStyle) :
    (OcrRepository.get_line_style_step line_span acc style).font =
      (if OcrRepository.binary_search_span style.spans line_span.offset ≠ -1 ∧
          OcrRepository.truthyStr style.similar_font_family then style.similar_font_family
       else acc.font) ∧
    (OcrRepository.get_line_style_step line_span acc style).color =
      (if OcrRepository.binary_search_span style.spans line_span.offset ≠ -1 ∧
          OcrRepository.truthyStr style.color then style.color
       else acc.color) ∧
    (OcrRepository.get_line_style_step line_span acc style).font_weight =
      (if OcrRepository.binary_search_span style.spans line_span.offset ≠ -1 ∧
          OcrRepository.truthyStr style.font_weight then style.font_weight
       else acc.font_weight) ∧
    (OcrRepository.get_line_style_step line_span acc style).background_color =
      (if OcrRepository.binary_search_span style.spans line_span.offset ≠ -1 ∧
          OcrRepository.truthyStr style.background_color then style.background_color
       else acc.background_color) := by
  rw [OcrRepository.get_line_style_step]
  by_cases h1 : OcrRepository.binary_search_span style.spans line_span.offset ≠ -1 <;>
    by_cases h2 : OcrRepository.truthyStr style.similar_font_family <;>
    by_cases h3 : OcrRepository.truthyStr style.color <;>
    by_cases h4 : OcrRepository.truthyStr style.font_weight <;>
    by_cases h5 : OcrRepository.truthyStr style.background_color <;>
    simp [h1, h2, h3, h4, h5]

/-- Field equality implies equality of `StyleAttributes`. -/
theorem OcrRepository.StyleAttributes.eq_of_fields {a b : OcrRepository.StyleAttributes}
    (h1 : a.font = b.font) (h2 : a.color = b.color) (h3 : a.font_weight = b.font_weight)
    (h4 : a.background_color = b.background_color) : a = b := by
  cases a; cases b
  simp only at h1 h2 h3 h4
  simp [h1, h2, h3, h4]

/-- The style fold computes `last_attr` for any record field whose
per-iteration update follows the match-and-truthy overwrite pattern. -/
theorem OcrRepository.get_line_style_field (line_span : DocumentSpan)
    (fld : OcrRepository.StyleAttributes → Option PyStr)
    (proj : DocumentStyle → Option PyStr)
    (hcompat : ∀ acc st, fld (OcrRepository.get_line_style_step line_span acc st) =
      (if OcrRepository.binary_search_span st.spans line_span.offset ≠ -1 ∧
          OcrRepository.truthyStr (proj st) then proj st else fld acc)) :
    ∀ (styles : List DocumentStyle),
      (∀ st ∈ styles, st.spans.Pairwise (fun a b => a.offset ≤ b.offset) ∧
        st.spans.Pairwise (fun a b => a.offset + a.length ≤ b.offset)) →
      ∀ acc : OcrRepository.StyleAttributes,
      fld (styles.foldl (OcrRepository.get_line_style_step line_span) acc) =
        (match OcrRepository.last_attr line_span.offset proj styles with
          | some v => some v
          | none => fld acc) := by
  intro styles
  induction styles with
  | nil =>
    intro _ acc
    simp [OcrRepository.last_attr]
  | cons st rest ih =>
    intro hall acc
    have hst := hall st (List.mem_cons_self st rest)
    have hrest := fun s hs => hall s (List.mem_cons_of_mem st hs)
    have hiff := OcrRepository.binary_search_span_iff st.spans line_span.offset hst.1 hst.2
    rw [List.foldl_cons]
    rw [ih hrest (OcrRepository.get_line_style_step line_span acc st)]
    rw [hcompat acc st]
    rw [OcrRepository.last_attr]
    cases hrest_la : OcrRepository.last_attr line_span.offset proj rest with
    | some v => rfl
    | none =>
      by_cases hq : (decide (∃ sp ∈ st.spans, OcrRepository.spanContains sp line_span.offset)
          && OcrRepository.truthyStr (proj st)) = true
      · rw [if_pos hq]
        rw [Bool.and_eq_true, decide_eq_true_eq] at hq
        rw [if_pos ⟨hiff.mpr hq.1, hq.2⟩]
        cases hproj : proj st with
        | none => rw [hproj] at hq; simp [OcrRepository.truthyStr] at hq
        | some v => rfl
      · rw [if_neg hq]
        rw [Bool.and_eq_true, decide_eq_true_eq] at hq
        rw [if_neg (fun hc => hq ⟨hiff.mp hc.1, hc.2⟩)]

/-- C6 (amended): provided each style's spans are sorted by offset and
non-overlapping (so that the span binary search is sound), `_get_line_style`
merges all matching styles attribute by attribute: each returned attribute
is the value set by the last style in declaration order that has the
attribute populated (truthy) and some span containing the line's start
offset. -/
theorem OcrRepository.get_line_style_merge_spec (line_span : DocumentSpan)
    (styles : List DocumentStyle)
    (hall : ∀ st ∈ styles, st.spans.Pairwise (fun a b => a.offset ≤ b.offset) ∧
      st.spans.Pairwise (fun a b => a.offset + a.length ≤ b.offset)) :
    OcrRepository.get_line_style line_span styles =
      { font := OcrRepository.last_attr line_span.offset DocumentStyle.similar_font_family styles
        color := OcrRepository.last_attr line_span.offset DocumentStyle.color styles
        font_weight := OcrRepository.last_attr line_span.offset DocumentStyle.font_weight styles
        background_color :=
          OcrRepository.last_attr line_span.offset DocumentStyle.background_color styles } := by
  have hf := OcrRepository.get_line_style_field line_span
    OcrRepository.StyleAttributes.font DocumentStyle.similar_font_family
    (fun acc st => (OcrRepository.get_line_style_step_fields line_span acc st).1)
    styles hall ⟨none, none, none, none⟩
  have hc := OcrRepository.get_line_style_field line_span
    OcrRepository.StyleAttributes.color DocumentStyle.color
    (fun acc st => (OcrRepository.get_line_style_step_fields line_span acc st).2.1)
    styles hall ⟨none, none, none, none⟩
  have hw := OcrRepository.get_line_style_field line_span
    OcrRepository.StyleAttributes.font_weight DocumentStyle.font_weight
    (fun acc st => (OcrRepository.get_line_style_step_fields line_span acc st).2.2.1)
    styles hall ⟨none, none, none, none⟩
  have hb := OcrRepository.get_line_style_field line_span
    OcrRepository.StyleAttributes.background_color DocumentStyle.background_color
    (fun acc st => (OcrRepository.get_line_style_step_fields line_span acc st).2.2.2)
    styles hall ⟨none, none, none, none⟩
  refine OcrRepository.StyleAttributes.eq_of_fields ?_ ?_ ?_ ?_
  · rw [OcrRepository.get_line_style, hf]
    cases OcrRepository.last_attr line_span.offset DocumentStyle.similar_font_family styles <;> rfl
  · rw [OcrRepository.get_line_style, hc]
    cases OcrRepository.last_attr line_span.offset DocumentStyle.color styles <;> rfl
  · rw [OcrRepository.get_line_style, hw]
    cases OcrRepository.last_attr line_span.offset DocumentStyle.font_weight styles <;> rfl
  · rw [OcrRepository.get_line_style, hb]
    cases OcrRepository.last_attr line_span.offset DocumentStyle.background_color styles <;> rfl

/-- C6 (counterexample): for an arbitrary style list the claim fails — with
overlapping spans the binary search misses the containing span `(0,10)` at
offset 8, so `_get_line_style` returns no font although the (only, hence
last) style has a span containing the offset and a populated font. -/
theorem OcrRepository.get_line_style_not_spec_for_overlap :
    (OcrRepository.get_line_style ⟨8, 1⟩ [c6style]).font = none ∧
    OcrRepository.last_attr 8 DocumentStyle.similar_font_family [c6style] =
      some (("A").toList) ∧
    (⟨0, 10⟩ : DocumentSpan) ∈ c6style.spans ∧
    OcrRepository.spanContains ⟨0, 10⟩ 8 := by
  refine ⟨?_, by decide, by decide, by decide⟩
  simp [OcrRepository.get_line_style, OcrRepository.get_line_style_step,
    OcrRepository.binary_search_span, OcrRepository.binary_search_span_loop,
    OcrRepository.spanContains, c6style]

/-- C6 witness: at offset 6 both styles match; the later one overrides the
font while the earlier one's color survives — per-attribute merging, not
whole-record. -/
theorem OcrRepository.get_line_style_merge_spec_witness :
    OcrRepository.get_line_style ⟨6, 1⟩ [c6styleA, c6styleB] =
      { font := some (("B").toList), color := some (("C").toList)
        font_weight := none, background_color := none } :=
  (OcrRepository.get_line_style_merge_spec ⟨6, 1⟩ [c6styleA, c6styleB]
    (by decide)).trans (by decide)

/-- C2 witness: three sorted non-overlapping lines with spans `(0,10)`,
`(10,8)`, `(18,4)`; the paragraph span `[0,18)` selects exactly the first
two. -/
theorem OcrRepository.get_textlines_in_paragraph_spec_witness :
    OcrRepository.get_textlines_in_paragraph c2para
        [c2line 0 10, c2line 10 8, c2line 18 4] =
      some [c2line 0 10, c2line 10 8] :=
  (OcrRepository.get_textlines_in_paragraph_spec c2para
    [c2line 0 10, c2line 10 8, c2line 18 4] ⟨0, 18⟩ rfl
    (by decide) (by decide)).trans (by decide)

/-- C7 (counterexample): `TranslateSectionUseCase.execute` appends results
in `as_completed` order and never re-sorts: under the completion order
`[1, 0]` (a permutation of the two task indices) the returned list has ids
`[1, 0]` — not sorted by `section_id` and not the declaration order. -/
theorem TranslateSectionUseCase.execute_not_sorted :
    List.Perm [1, 0] (List.range 2) ∧
    (TranslateSectionUseCase.execute idTranslate [1, 0] [sec0, sec1]).map
        SectionWithTranslation.section_id = [1, 0] ∧
    ¬ List.Pairwise (fun a b => a.section_id ≤ b.section_id)
        (TranslateSectionUseCase.execute idTranslate [1, 0] [sec0, sec1]) := by
  refine ⟨by decide, rfl, ?_⟩
  intro h
  have := List.rel_of_pairwise_cons h (List.mem_singleton.mpr rfl)
  simp [TranslateSectionUseCase.execute, idTranslate, sec0, sec1, dictGetInt] at this

/-- C7 (amended): only the asynchronous fan-out
`TranslateSectionFormulaIdUseCase.execute_async` re-sorts its results by
`section_id` before returning; its output is always sorted by `section_id`,
and when the input sections carry strictly increasing ids the output id
sequence equals the declaration order.  (The synchronous `execute` methods
return in completion order, see the counterexample.) -/
theorem TranslateSectionFormulaIdUseCase.execute_async_sorted
    (translateParas : List Paragraph → List ParagraphWithTranslation × TranslationUsageStatsConfig)
    (sections : List Section) :
    List.Pairwise (fun a b => a.section_id ≤ b.section_id)
        (execute_async translateParas sections).1 ∧
    (List.Pairwise (fun a b : Section => a.section_id < b.section_id) sections →
      (execute_async translateParas sections).1.map SectionWithTranslation.section_id =
        sections.map Section.section_id) := by
  have hid : ∀ s, (get_result_task translateParas s).1.section_id = s.section_id := by
    intro s
    rw [get_result_task]
    split <;> rfl
  have hsorted : List.Pairwise (fun a b => a.section_id ≤ b.section_id)
      (execute_async translateParas sections).1 := by
    have h := @List.sorted_mergeSort SectionWithTranslation
      (fun (a b : SectionWithTranslation) => decide (a.section_id ≤ b.section_id))
      (fun a b c hab hbc => by
        simp only [decide_eq_true_eq] at *
        omega)
      (fun a b => by
        simp only [Bool.or_eq_true, decide_eq_true_eq]
        omega)
      ((sections.mergeSort (fun a b => decide (b.content_length ≤ a.content_length))).map
        (get_result_task translateParas) |>.map Prod.fst)
    refine List.Pairwise.imp ?_ h
    intro a b hab
    simpa using hab
  refine ⟨hsorted, ?_⟩
  intro hstrict
  have hperm : ((execute_async translateParas sections).1.map
      SectionWithTranslation.section_id).Perm (sections.map Section.section_id) := by
    have h1 : ((execute_async translateParas sections).1.map
        SectionWithTranslation.section_id).Perm
        ((((sections.mergeSort (fun a b => decide (b.content_length ≤ a.content_length))).map
          (get_result_task translateParas)).map Prod.fst).map
            SectionWithTranslation.section_id) :=
      (List.mergeSort_perm _ _).map _
    have h2 : ((((sections.mergeSort (fun a b => decide (b.content_length ≤ a.content_length))).map
        (get_result_task translateParas)).map Prod.fst).map
          SectionWithTranslation.section_id) =
        (sections.mergeSort (fun a b => decide (b.content_length ≤ a.content_length))).map
          Section.section_id := by
      simp only [List.map_map]
      exact List.map_congr_left (fun s _ => hid s)
    have h3 : ((sections.mergeSort (fun a b => decide (b.content_length ≤ a.content_length))).map
        Section.section_id).Perm (sections.map Section.section_id) :=
      (List.mergeSort_perm _ _).map _
    exact h1.trans (h2 ▸ h3)
  have hs1 : List.Sorted (· ≤ ·) ((execute_async translateParas sections).1.map
      SectionWithTranslation.section_id) :=
    hsorted.map _ (fun _ _ h => h)
  have hs2 : List.Sorted (· ≤ ·) (sections.map Section.section_id) :=
    (hstrict.imp le_of_lt).map _ (fun _ _ h => h)
  exact List.eq_of_perm_of_sorted hperm hs1 hs2

/-- C7 witness: `execute_async` on two concrete sections declared with ids
`[0, 1]` returns ids `[0, 1]`. -/
theorem TranslateSectionFormulaIdUseCase.execute_async_sorted_witness :
    (TranslateSectionFormulaIdUseCase.execute_async (fun _ => ([], {})) [sec0, sec1]).1.map
        SectionWithTranslation.section_id = [0, 1] :=
  ((TranslateSectionFormulaIdUseCase.execute_async_sorted _ [sec0, sec1]).2
    (by decide)).trans (by decide)

/-! ## Occurrence counting and single replacement: unfolding lemmas -/

/-- `pyCount` of the empty string. -/
theorem pyCount_nil (pat : PyStr) : pyCount pat [] = 0 := by
  cases pat <;> simp [pyCount]

/-- `pyCount` with the empty pattern. -/
theorem pyCount_nil_pat (s : PyStr) : pyCount [] s = 0 := by
  cases s <;> simp [pyCount]

/-- `pyReplaceFirst` with the empty pattern. -/
theorem pyReplaceFirst_nil_pat (s r : PyStr) : pyReplaceFirst [] s r = s := by
  cases s <;> simp [pyReplaceFirst]

/-- `pySubstTokens` with the empty pattern. -/
theorem pySubstTokens_nil_pat (s : PyStr) (reps : List PyStr) :
    pySubstTokens [] s reps = s := by
  cases s <;> cases reps <;> simp [pySubstTokens]

/-- `pyCount` one-step unfolding. -/
theorem pyCount_cons (p : Char) (ps : PyStr) (c : Char) (s2 : PyStr) :
    pyCount (p :: ps) (c :: s2) =
      if (p :: ps) <+: (c :: s2) then 1 + pyCount (p :: ps) (s2.drop ps.length)
      else pyCount (p :: ps) s2 := by
  rw [pyCount]

/-- `pyReplaceFirst` of the empty string. -/
theorem pyReplaceFirst_nil (pat r : PyStr) : pyReplaceFirst pat [] r = [] := by
  cases pat <;> simp [pyReplaceFirst]

/-- `pyReplaceFirst` one-step unfolding. -/
theorem pyReplaceFirst_cons (p : Char) (ps : PyStr) (c : Char) (s2 r : PyStr) :
    pyReplaceFirst (p :: ps) (c :: s2) r =
      if (p :: ps) <+: (c :: s2) then r ++ s2.drop ps.length
      else c :: pyReplaceFirst (p :: ps) s2 r := by
  rw [pyReplaceFirst]

/-- `pySubstTokens` with no replacements left. -/
theorem pySubstTokens_nil_reps (pat s : PyStr) : pySubstTokens pat s [] = s := by
  cases pat <;> cases s <;> simp [pySubstTokens]

/-- `pySubstTokens` of the empty string. -/
theorem pySubstTokens_nil_str (pat : PyStr) (reps : List PyStr) :
    pySubstTokens pat [] reps = [] := by
  cases pat <;> cases reps <;> simp [pySubstTokens]

/-- `pySubstTokens` one-step unfolding. -/
theorem pySubstTokens_cons (p : Char) (ps : PyStr) (r : PyStr) (rs : List PyStr)
    (c : Char) (s2 : PyStr) :
    pySubstTokens (p :: ps) (c :: s2) (r :: rs) =
      if (p :: ps) <+: (c :: s2) then r ++ pySubstTokens (p :: ps) (s2.drop ps.length) rs
      else c :: pySubstTokens (p :: ps) s2 (r :: rs) := by
  rw [pySubstTokens]

/-! ## Occurrence counting across a `'$'` boundary

The next lemmas capture why wrapping substituted formulas in `$...$`
prevents interaction with the remaining placeholder tokens: the pattern
`:formula:` contains no `'$'`, so no occurrence can cross a `'$'`. -/

/-- A `'$'`-free pattern that is a prefix of `v ++ '$' :: t` is already a
prefix of `v`. -/
theorem prefix_of_prefix_append_dollar {pat v t : PyStr} (hd : '$' ∉ pat)
    (h : pat <+: (v ++ '$' :: t)) : pat <+: v := by
  by_cases hlen : pat.length ≤ v.length
  · have htake : pat = List.take pat.length (v ++ '$' :: t) := List.prefix_iff_eq_take.mp h
    rw [List.take_append_of_le_length hlen] at htake
    rw [htake]
    exact List.take_prefix _ _
  · exfalso
    apply hd
    push_neg at hlen
    obtain ⟨u, hu⟩ := h
    have hvp : v.length < pat.length := hlen
    have hvlt : v.length < (pat ++ u).length := by simp; omega
    have e1 : (pat ++ u)[v.length] = pat[v.length] := List.getElem_append_left hvp
    have e2 : (pat ++ u)[v.length] = '$' := by
      have hv2 : v.length < (v ++ '$' :: t).length := by simp
      rw [show (pat ++ u)[v.length] = (v ++ '$' :: t)[v.length] from by congr 1]
      rw [List.getElem_append_right (le_refl v.length)]
      simp
    rw [e2] at e1
    rw [e1]
    exact List.getElem_mem hvp

/-- No occurrence of a `'$'`-free pattern survives in a count-free block
followed by a `'$'`: counting continues in the tail. -/
theorem pyCount_append_dollar {pat : PyStr} (hd : '$' ∉ pat) :
    ∀ (v t : PyStr), pyCount pat v = 0 →
      pyCount pat (v ++ '$' :: t) = pyCount pat t := by
  intro v
  induction v with
  | nil =>
    intro t _
    cases pat with
    | nil => simp [pyCount]
    | cons p ps =>
      rw [List.nil_append, pyCount_cons]
      rw [if_neg (fun hc => hd (by rw [(List.cons_prefix_cons.mp hc).1]; exact List.mem_cons_self _ _))]
  | cons c v2 ih =>
    intro t hv
    cases pat with
    | nil => simp [pyCount]
    | cons p ps =>
      rw [List.cons_append, pyCount_cons]
      rw [pyCount_cons] at hv
      have hnp : ¬ ((p :: ps) <+: (c :: v2)) := by
        intro hc
        rw [if_pos hc] at hv
        omega
      rw [if_neg hnp] at hv
      rw [if_neg (fun hc => hnp (prefix_of_prefix_append_dollar hd (by simpa using hc)))]
      exact ih t hv

/-- Replacing in a string with no occurrence is the identity. -/
theorem pyReplaceFirst_of_count_zero (pat : PyStr) :
    ∀ (s r : PyStr), pyCount pat s = 0 → pyReplaceFirst pat s r = s := by
  intro s
  induction s with
  | nil => intro r _; exact pyReplaceFirst_nil pat r
  | cons c s2 ih =>
    intro r hs
    cases pat with
    | nil => exact pyReplaceFirst_nil_pat _ r
    | cons p ps =>
      rw [pyCount_cons] at hs
      have hnp : ¬ ((p :: ps) <+: (c :: s2)) := by
        intro hc
        rw [if_pos hc] at hs
        omega
      rw [if_neg hnp] at hs
      rw [pyReplaceFirst_cons, if_neg hnp, ih r hs]

/-- A `'$'`-free nonempty prefix of a replacement result (with a
replacement starting in `'$'`) was already a prefix of the original
string. -/
theorem prefix_of_prefix_replaceFirst :
    ∀ (pat s t : PyStr), t ≠ [] → '$' ∉ t → ∀ (w : PyStr),
      t <+: pyReplaceFirst pat s ('$' :: w) → t <+: s := by
  intro pat s
  induction s with
  | nil =>
    intro t ht hd w h
    rw [pyReplaceFirst_nil, List.prefix_nil] at h
    exact absurd h ht
  | cons c s2 ih =>
    intro t ht hd w h
    cases pat with
    | nil => rw [pyReplaceFirst_nil_pat] at h; exact h
    | cons p ps =>
      rw [pyReplaceFirst_cons] at h
      by_cases hp : (p :: ps) <+: (c :: s2)
      · rw [if_pos hp] at h
        exfalso
        apply hd
        cases t with
        | nil => exact absurd rfl ht
        | cons t0 t1 =>
          rw [show ('$' :: w) ++ s2.drop ps.length = '$' :: (w ++ s2.drop ps.length) from rfl,
            List.cons_prefix_cons] at h
          rw [h.1]
          exact List.mem_cons_self _ _
      · rw [if_neg hp] at h
        cases t with
        | nil => exact absurd rfl ht
        | cons t0 t1 =>
          rw [List.cons_prefix_cons] at h ⊢
          refine ⟨h.1, ?_⟩
          by_cases ht1 : t1 = []
          · subst ht1
            exact List.nil_prefix
          · exact ih t1 ht1 (fun hm => hd (List.mem_cons_of_mem _ hm)) w h.2

/-- Replacing the first occurrence of a `'$'`-free pattern by a `$`-wrapped
occurrence-free block decrements the occurrence count by exactly one. -/
theorem pyCount_replaceFirst {pat : PyStr} (hd : '$' ∉ pat) (hpat : pat ≠ [])
    (v : PyStr) (hv : pyCount pat v = 0) :
    ∀ s : PyStr, 1 ≤ pyCount pat s →
      pyCount pat (pyReplaceFirst pat s ('$' :: v ++ ['$'])) = pyCount pat s - 1 := by
  intro s
  induction s with
  | nil => intro hc; rw [pyCount_nil] at hc; omega
  | cons c s2 ih =>
    intro hc
    cases pat with
    | nil => exact absurd rfl hpat
    | cons p ps =>
      have hpd : p ≠ '$' := fun h => hd (by rw [h]; exact List.mem_cons_self _ _)
      rw [pyReplaceFirst_cons]
      by_cases hp : (p :: ps) <+: (c :: s2)
      · rw [if_pos hp]
        rw [show ('$' :: v ++ ['$']) ++ s2.drop ps.length =
          '$' :: (v ++ '$' :: s2.drop ps.length) from by simp]
        rw [pyCount_cons]
        rw [if_neg (fun hcp => hpd (List.cons_prefix_cons.mp hcp).1)]
        rw [pyCount_append_dollar hd v _ hv]
        rw [pyCount_cons, if_pos hp] at hc ⊢
        omega
      · rw [if_neg hp]
        rw [pyCount_cons, if_neg hp] at hc
        rw [pyCount_cons]
        have hnp2 : ¬ ((p :: ps) <+:
            (c :: pyReplaceFirst (p :: ps) s2 ('$' :: v ++ ['$']))) := by
          intro hcp
          rw [List.cons_prefix_cons] at hcp
          apply hp
          rw [List.cons_prefix_cons]
          refine ⟨hcp.1, ?_⟩
          by_cases hps : ps = []
          · subst hps; exact List.nil_prefix
          · exact prefix_of_prefix_replaceFirst (p :: ps) s2 ps hps
              (fun hm => hd (List.mem_cons_of_mem _ hm)) (v ++ ['$'])
              (by simpa using hcp.2)
        rw [if_neg hnp2]
        rw [pyCount_cons, if_neg hp]
        exact ih hc

/-- Substitution scans straight through an occurrence-free block followed
by `'$'`. -/
theorem pySubstTokens_append_dollar {pat : PyStr} (hd : '$' ∉ pat) :
    ∀ (v : PyStr), pyCount pat v = 0 → ∀ (t : PyStr) (reps : List PyStr),
      pySubstTokens pat (v ++ '$' :: t) reps = v ++ '$' :: pySubstTokens pat t reps := by
  intro v
  induction v with
  | nil =>
    intro _ t reps
    cases pat with
    | nil => rw [pySubstTokens_nil_pat, pySubstTokens_nil_pat]
    | cons p ps =>
      cases reps with
      | nil => rw [pySubstTokens_nil_reps, pySubstTokens_nil_reps]
      | cons r rs =>
        rw [List.nil_append, List.nil_append, pySubstTokens_cons]
        rw [if_neg (fun hcp => hd (by
          rw [(List.cons_prefix_cons.mp hcp).1]; exact List.mem_cons_self _ _))]
  | cons c v2 ih =>
    intro hv t reps
    cases pat with
    | nil => rw [pySubstTokens_nil_pat, pySubstTokens_nil_pat]
    | cons p ps =>
      rw [pyCount_cons] at hv
      have hnp : ¬ ((p :: ps) <+: (c :: v2)) := by
        intro hcp
        rw [if_pos hcp] at hv
        omega
      rw [if_neg hnp] at hv
      cases reps with
      | nil => rw [pySubstTokens_nil_reps, pySubstTokens_nil_reps]
      | cons r rs =>
        rw [List.cons_append, pySubstTokens_cons]
        rw [if_neg (fun hcp => hnp
          (prefix_of_prefix_append_dollar hd (by simpa using hcp)))]
        rw [show (c :: v2) ++ '$' :: pySubstTokens (p :: ps) t (r :: rs) =
          c :: (v2 ++ '$' :: pySubstTokens (p :: ps) t (r :: rs)) from rfl]
        rw [ih hv t (r :: rs)]

/-- Replacing the first occurrence and then substituting the remaining
replacements equals substituting all of them at once. -/
theorem pySubstTokens_replaceFirst {pat : PyStr} (hd : '$' ∉ pat) (hpat : pat ≠ [])
    (v : PyStr) (hv : pyCount pat v = 0) :
    ∀ (s : PyStr) (rs : List PyStr), 1 ≤ pyCount pat s →
      pySubstTokens pat (pyReplaceFirst pat s ('$' :: v ++ ['$'])) rs =
        pySubstTokens pat s (('$' :: v ++ ['$']) :: rs) := by
  intro s
  induction s with
  | nil => intro rs hc; rw [pyCount_nil] at hc; omega
  | cons c s2 ih =>
    intro rs hc
    cases pat with
    | nil => exact absurd rfl hpat
    | cons p ps =>
      have hpd : p ≠ '$' := fun h => hd (by rw [h]; exact List.mem_cons_self _ _)
      rw [pyReplaceFirst_cons]
      by_cases hp : (p :: ps) <+: (c :: s2)
      · rw [if_pos hp]
        rw [pySubstTokens_cons, if_pos hp]
        cases rs with
        | nil =>
          rw [pySubstTokens_nil_reps, pySubstTokens_nil_reps]
        | cons r2 rs2 =>
          rw [show ('$' :: v ++ ['$']) ++ s2.drop ps.length =
            '$' :: (v ++ '$' :: s2.drop ps.length) from by simp]
          rw [pySubstTokens_cons]
          rw [if_neg (fun hcp => hpd (List.cons_prefix_cons.mp hcp).1)]
          rw [pySubstTokens_append_dollar hd v hv _ (r2 :: rs2)]
          simp
      · rw [if_neg hp]
        rw [pyCount_cons, if_neg hp] at hc
        have hnp2 : ¬ ((p :: ps) <+:
            (c :: pyReplaceFirst (p :: ps) s2 ('$' :: v ++ ['$']))) := by
          intro hcp
          rw [List.cons_prefix_cons] at hcp
          apply hp
          rw [List.cons_prefix_cons]
          refine ⟨hcp.1, ?_⟩
          by_cases hps : ps = []
          · subst hps; exact List.nil_prefix
          · exact prefix_of_prefix_replaceFirst (p :: ps) s2 ps hps
              (fun hm => hd (List.mem_cons_of_mem _ hm)) (v ++ ['$'])
              (by simpa using hcp.2)
        cases rs with
        | nil =>
          rw [pySubstTokens_nil_reps, pySubstTokens_cons, if_neg hp]
          rw [show pyReplaceFirst (p :: ps) s2 ('$' :: v ++ ['$']) =
            pySubstTokens (p :: ps) s2 [('$' :: v ++ ['$'])] from by
              rw [← pySubstTokens_nil_reps (p :: ps)
                (pyReplaceFirst (p :: ps) s2 ('$' :: v ++ ['$']))]
              exact ih [] hc]
        | cons r2 rs2 =>
          rw [pySubstTokens_cons, if_neg hnp2]
          rw [pySubstTokens_cons, if_neg hp]
          rw [ih (r2 :: rs2) hc]

/-- Iterated first-occurrence replacement with blocked replacements equals
the left-to-right simultaneous substitution, as long as the replacements do
not outnumber the occurrences. -/
theorem foldl_replaceFirst_eq_subst {pat : PyStr} (hd : '$' ∉ pat) (hpat : pat ≠ []) :
    ∀ (reps : List PyStr) (s : PyStr),
      (∀ r ∈ reps, BlockedRep pat r) →
      reps.length ≤ pyCount pat s →
      reps.foldl (fun acc r => pyReplaceFirst pat acc r) s = pySubstTokens pat s reps := by
  intro reps
  induction reps with
  | nil => intro s _ _; rw [List.foldl_nil, pySubstTokens_nil_reps]
  | cons r rs ih =>
    intro s hbl hlen
    obtain ⟨v, rfl, hv⟩ := hbl r (List.mem_cons_self _ _)
    have hc : 1 ≤ pyCount pat s := by
      rw [List.length_cons] at hlen
      omega
    rw [List.foldl_cons]
    rw [ih (pyReplaceFirst pat s ('$' :: v ++ ['$']))
      (fun r2 h2 => hbl r2 (List.mem_cons_of_mem _ h2))
      (by rw [pyCount_replaceFirst hd hpat v hv s hc]
          rw [List.length_cons] at hlen
          omega)]
    exact pySubstTokens_replaceFirst hd hpat v hv s rs hc

/-- Occurrence count after iterated blocked replacement: each replacement
consumes exactly one occurrence. -/
theorem pyCount_foldl_replaceFirst {pat : PyStr} (hd : '$' ∉ pat) (hpat : pat ≠ []) :
    ∀ (reps : List PyStr) (s : PyStr),
      (∀ r ∈ reps, BlockedRep pat r) →
      reps.length ≤ pyCount pat s →
      pyCount pat (reps.foldl (fun acc r => pyReplaceFirst pat acc r) s) =
        pyCount pat s - reps.length := by
  intro reps
  induction reps with
  | nil => intro s _ _; rw [List.foldl_nil]; simp
  | cons r rs ih =>
    intro s hbl hlen
    obtain ⟨v, rfl, hv⟩ := hbl r (List.mem_cons_self _ _)
    rw [List.length_cons] at hlen
    have hc : 1 ≤ pyCount pat s := by omega
    rw [List.foldl_cons]
    rw [ih (pyReplaceFirst pat s ('$' :: v ++ ['$']))
      (fun r2 h2 => hbl r2 (List.mem_cons_of_mem _ h2))
      (by rw [pyCount_replaceFirst hd hpat v hv s hc]; omega)]
    rw [pyCount_replaceFirst hd hpat v hv s hc]
    rw [List.length_cons]
    omega

/-- The placeholder token is `'$'`-free and nonempty. -/
theorem formulaTok_props : '$' ∉ formulaTok ∧ formulaTok ≠ [] := by
  decide

/-- The inner substitution loop: it performs `min n (formulas available)`
replacements from the cursor onward, advances the cursor by that amount,
and warns exactly when the formulas ran out. -/
theorem PyLatexGeneratePdfRepository.subst_loop_eq (page_formulas : List Formula) :
    ∀ (n : Nat) (s : PyStr) (idx : Nat),
      PyLatexGeneratePdfRepository.subst_loop page_formulas n s idx =
        (PyLatexGeneratePdfRepository.replaceAll s
            (PyLatexGeneratePdfRepository.formulaReps page_formulas idx
              (min n (page_formulas.length - idx))),
         idx + min n (page_formulas.length - idx),
         if n ≤ page_formulas.length - idx then 0 else 1) := by
  intro n
  induction n with
  | zero =>
    intro s idx
    simp [PyLatexGeneratePdfRepository.subst_loop,
      PyLatexGeneratePdfRepository.formulaReps, PyLatexGeneratePdfRepository.replaceAll]
  | succ n ih =>
    intro s idx
    rw [PyLatexGeneratePdfRepository.subst_loop]
    by_cases h : idx < page_formulas.length
    · rw [dif_pos h]
      rw [ih]
      have hreps : PyLatexGeneratePdfRepository.formulaReps page_formulas idx
          (min (n + 1) (page_formulas.length - idx)) =
          (PyLatexGeneratePdfRepository.wrapMath
            (PyLatexGeneratePdfRepository.sanitize_latex_value
              (page_formulas.get ⟨idx, h⟩).latex_value)) ::
          PyLatexGeneratePdfRepository.formulaReps page_formulas (idx + 1)
            (min n (page_formulas.length - (idx + 1))) := by
        rw [PyLatexGeneratePdfRepository.formulaReps,
          PyLatexGeneratePdfRepository.formulaReps]
        rw [List.drop_eq_getElem_cons h]
        rw [show min (n + 1) (page_formulas.length - idx) =
          min n (page_formulas.length - (idx + 1)) + 1 from by omega]
        rw [List.take_succ_cons, List.map_cons]
        rfl
      rw [hreps]
      rw [show PyLatexGeneratePdfRepository.replaceAll s
          ((PyLatexGeneratePdfRepository.wrapMath
            (PyLatexGeneratePdfRepository.sanitize_latex_value
              (page_formulas.get ⟨idx, h⟩).latex_value)) ::
          PyLatexGeneratePdfRepository.formulaReps page_formulas (idx + 1)
            (min n (page_formulas.length - (idx + 1)))) =
        PyLatexGeneratePdfRepository.replaceAll
          (pyReplaceFirst formulaTok s
            (PyLatexGeneratePdfRepository.wrapMath
              (PyLatexGeneratePdfRepository.sanitize_latex_value
                (page_formulas.get ⟨idx, h⟩).latex_value)))
          (PyLatexGeneratePdfRepository.formulaReps page_formulas (idx + 1)
            (min n (page_formulas.length - (idx + 1)))) from rfl]
      refine congrArg₂ Prod.mk rfl (congrArg₂ Prod.mk (by omega) ?_)
      exact if_congr (by omega) rfl rfl
    · rw [dif_neg h]
      have h0 : page_formulas.length - idx = 0 := by omega
      rw [h0]
      simp [PyLatexGeneratePdfRepository.formulaReps, PyLatexGeneratePdfRepository.replaceAll]

/-- Sanitising a token-free LaTeX value keeps it token-free (`??` contains
no token either). -/
theorem PyLatexGeneratePdfRepository.sanitize_count_zero (v : PyStr)
    (hf : pyCount formulaTok v = 0) :
    pyCount formulaTok (PyLatexGeneratePdfRepository.sanitize_latex_value v) = 0 := by
  rw [PyLatexGeneratePdfRepository.sanitize_latex_value]
  split
  · simp [pyCount, formulaTok]
  · exact hf

/-- A wrapped sanitised token-free value is a blocked replacement. -/
theorem PyLatexGeneratePdfRepository.wrap_blocked (v : PyStr)
    (hf : pyCount formulaTok v = 0) :
    BlockedRep formulaTok
      (PyLatexGeneratePdfRepository.wrapMath
        (PyLatexGeneratePdfRepository.sanitize_latex_value v)) :=
  ⟨PyLatexGeneratePdfRepository.sanitize_latex_value v, rfl,
    PyLatexGeneratePdfRepository.sanitize_count_zero v hf⟩

/-- Every formula replacement string is blocked, when no formula's LaTeX
value contains the token. -/
theorem PyLatexGeneratePdfRepository.formulaReps_blocked (page_formulas : List Formula)
    (hfla : ∀ f ∈ page_formulas, pyCount formulaTok f.latex_value = 0) (k m : Nat) :
    ∀ r ∈ PyLatexGeneratePdfRepository.formulaReps page_formulas k m,
      BlockedRep formulaTok r := by
  intro r hr
  rw [PyLatexGeneratePdfRepository.formulaReps] at hr
  obtain ⟨f, hf, rfl⟩ := List.mem_map.mp hr
  exact PyLatexGeneratePdfRepository.wrap_blocked f.latex_value
    (hfla f (List.mem_of_mem_drop (List.mem_of_mem_take hf)))

/-- Length of the replacement slice. -/
theorem PyLatexGeneratePdfRepository.formulaReps_length (page_formulas : List Formula)
    (k m : Nat) :
    (PyLatexGeneratePdfRepository.formulaReps page_formulas k m).length =
      min m (page_formulas.length - k) := by
  rw [PyLatexGeneratePdfRepository.formulaReps]
  simp [List.length_take, List.length_drop]

/-- `tokenSum` over a cons. -/
theorem tokenSum_cons (p : Paragraph) (rest : List Paragraph) :
    tokenSum (p :: rest) = pyCount formulaTok p.content + tokenSum rest := by
  simp [tokenSum]

/-- The paragraph step when the escaped content has no token. -/
theorem PyLatexGeneratePdfRepository.convert_step_zero (esc : PyStr → PyStr)
    (page_formulas : List Formula) (acc : PyLatexGeneratePdfRepository.ConvertResult)
    (p : Paragraph) (h : pyCount formulaTok (esc p.content) = 0) :
    PyLatexGeneratePdfRepository.convert_step esc page_formulas acc p =
      { acc with paragraphs := acc.paragraphs ++ [{ p with content := esc p.content }] } := by
  simp only [PyLatexGeneratePdfRepository.convert_step, h]
  rfl

/-- The paragraph step when the escaped content has tokens: the inner loop
replaces `min n available` of them and advances the cursor. -/
theorem PyLatexGeneratePdfRepository.convert_step_pos (esc : PyStr → PyStr)
    (page_formulas : List Formula) (acc : PyLatexGeneratePdfRepository.ConvertResult)
    (p : Paragraph) (h : 0 < pyCount formulaTok (esc p.content)) :
    PyLatexGeneratePdfRepository.convert_step esc page_formulas acc p =
      { paragraphs := acc.paragraphs ++ [{ p with content := PyLatexGeneratePdfRepository.step_content esc page_formulas acc.current_formula_index p }]
        current_formula_index := acc.current_formula_index + min (pyCount formulaTok (esc p.content)) (page_formulas.length - acc.current_formula_index)
        not_enough_warnings := acc.not_enough_warnings + (if pyCount formulaTok (esc p.content) ≤ page_formulas.length - acc.current_formula_index then 0 else 1)
        remaining_token_warnings := acc.remaining_token_warnings + (if 0 < pyCount formulaTok (PyLatexGeneratePdfRepository.step_content esc page_formulas acc.current_formula_index p) then 1 else 0) } := by
  simp only [PyLatexGeneratePdfRepository.convert_step]
  rw [if_neg (by omega)]
  rw [PyLatexGeneratePdfRepository.subst_loop_eq]
  rfl

/-- The cursor position suffices to describe one positive step's content:
token count after the step. -/
theorem PyLatexGeneratePdfRepository.step_content_count (esc : PyStr → PyStr)
    (page_formulas : List Formula)
    (hfla : ∀ f ∈ page_formulas, pyCount formulaTok f.latex_value = 0)
    (k : Nat) (p : Paragraph) :
    pyCount formulaTok (PyLatexGeneratePdfRepository.step_content esc page_formulas k p) =
      pyCount formulaTok (esc p.content) -
        min (pyCount formulaTok (esc p.content)) (page_formulas.length - k) := by
  rw [PyLatexGeneratePdfRepository.step_content, PyLatexGeneratePdfRepository.replaceAll]
  rw [pyCount_foldl_replaceFirst formulaTok_props.1 formulaTok_props.2 _ _
    (PyLatexGeneratePdfRepository.formulaReps_blocked page_formulas hfla _ _)
    (by rw [PyLatexGeneratePdfRepository.formulaReps_length]; omega)]
  rw [PyLatexGeneratePdfRepository.formulaReps_length]
  omega

/-- When enough formulas remain, the step's content is the reference
substitution of all its tokens. -/
theorem PyLatexGeneratePdfRepository.step_content_subst (esc : PyStr → PyStr)
    (page_formulas : List Formula)
    (hfla : ∀ f ∈ page_formulas, pyCount formulaTok f.latex_value = 0)
    (k : Nat) (p : Paragraph)
    (hw : k + pyCount formulaTok (esc p.content) ≤ page_formulas.length) :
    PyLatexGeneratePdfRepository.step_content esc page_formulas k p =
      pySubstTokens formulaTok (esc p.content)
        (PyLatexGeneratePdfRepository.formulaReps page_formulas k
          (pyCount formulaTok (esc p.content))) := by
  rw [PyLatexGeneratePdfRepository.step_content, PyLatexGeneratePdfRepository.replaceAll]
  rw [show min (pyCount formulaTok (esc p.content)) (page_formulas.length - k) =
    pyCount formulaTok (esc p.content) from by omega]
  refine foldl_replaceFirst_eq_subst formulaTok_props.1 formulaTok_props.2 _ _ ?_ ?_
  · exact PyLatexGeneratePdfRepository.formulaReps_blocked page_formulas hfla _ _
  · rw [PyLatexGeneratePdfRepository.formulaReps_length]
    omega

/-- The master accounting lemma for `convert_paragraphs_to_latex`'s
paragraph loop (over any accumulator whose cursor is in range):

* the final cursor is `min (cursor + total tokens) (total formulas)`;
* one paragraph is emitted per input paragraph;
* the total number of unreplaced tokens in the output is exactly the token
  surplus over the available formulas;
* the not-enough-formulas warning counter is monotone, increases whenever
  the formulas run short, and stays unchanged when they suffice;
* when the formulas suffice, the emitted paragraphs are exactly the
  reference threading.

The hypotheses: `esc` preserves token counts (true of
`pylatex.utils.escape_latex`), and no formula's `latex_value` contains the
token. -/
theorem PyLatexGeneratePdfRepository.convert_fold_general (esc : PyStr → PyStr)
    (hesc : ∀ s, pyCount formulaTok (esc s) = pyCount formulaTok s)
    (page_formulas : List Formula)
    (hfla : ∀ f ∈ page_formulas, pyCount formulaTok f.latex_value = 0) :
    ∀ (paras : List Paragraph) (acc : PyLatexGeneratePdfRepository.ConvertResult),
      acc.current_formula_index ≤ page_formulas.length →
      (paras.foldl (PyLatexGeneratePdfRepository.convert_step esc page_formulas)
          acc).current_formula_index =
        min (acc.current_formula_index + tokenSum paras) page_formulas.length ∧
      (paras.foldl (PyLatexGeneratePdfRepository.convert_step esc page_formulas)
          acc).paragraphs.length = acc.paragraphs.length + paras.length ∧
      ((paras.foldl (PyLatexGeneratePdfRepository.convert_step esc page_formulas)
          acc).paragraphs.map (fun q => pyCount formulaTok q.content)).sum =
        (acc.paragraphs.map (fun q => pyCount formulaTok q.content)).sum +
          (acc.current_formula_index + tokenSum paras -
            min (acc.current_formula_index + tokenSum paras) page_formulas.length) ∧
      acc.not_enough_warnings ≤
        (paras.foldl (PyLatexGeneratePdfRepository.convert_step esc page_formulas)
          acc).not_enough_warnings ∧
      (page_formulas.length < acc.current_formula_index + tokenSum paras →
        acc.not_enough_warnings + 1 ≤
          (paras.foldl (PyLatexGeneratePdfRepository.convert_step esc page_formulas)
            acc).not_enough_warnings) ∧
      (acc.current_formula_index + tokenSum paras ≤ page_formulas.length →
        (paras.foldl (PyLatexGeneratePdfRepository.convert_step esc page_formulas)
            acc).paragraphs =
          acc.paragraphs ++ PyLatexGeneratePdfRepository.thread_reference esc page_formulas
            acc.current_formula_index paras ∧
        (paras.foldl (PyLatexGeneratePdfRepository.convert_step esc page_formulas)
            acc).not_enough_warnings = acc.not_enough_warnings) := by
  intro paras
  induction paras with
  | nil =>
    intro acc hle
    rw [List.foldl_nil]
    refine ⟨?_, by simp, ?_, le_refl _, ?_, ?_⟩
    · simp only [tokenSum, List.map_nil, List.sum_nil, Nat.add_zero]
      omega
    · simp only [tokenSum, List.map_nil, List.sum_nil, Nat.add_zero]
      omega
    · simp only [tokenSum, List.map_nil, List.sum_nil, Nat.add_zero]
      omega
    · intro _
      rw [PyLatexGeneratePdfRepository.thread_reference]
      simp
  | cons p rest ih =>
    intro acc hle
    rw [List.foldl_cons]
    have hn : pyCount formulaTok (esc p.content) = pyCount formulaTok p.content := hesc _
    by_cases hz : pyCount formulaTok (esc p.content) = 0
    · -- no tokens in this paragraph
      rw [PyLatexGeneratePdfRepository.convert_step_zero esc page_formulas acc p hz]
      obtain ⟨ih1, ih2, ih3, ih4, ih5, ih6⟩ := ih
        { acc with paragraphs := acc.paragraphs ++ [{ p with content := esc p.content }] }
        hle
      simp only at ih1 ih2 ih3 ih4 ih5 ih6
      have hts : tokenSum (p :: rest) = tokenSum rest := by
        rw [tokenSum_cons]
        omega
      rw [hts]
      refine ⟨ih1, ?_, ?_, ih4, ih5, ?_⟩
      · rw [ih2]
        simp only [List.length_append, List.length_cons, List.length_nil]
        omega
      · rw [ih3]
        simp [List.map_append, List.sum_append, hz]
      · intro hok
        obtain ⟨ih6a, ih6b⟩ := ih6 hok
        refine ⟨?_, ih6b⟩
        rw [ih6a]
        rw [PyLatexGeneratePdfRepository.thread_reference]
        rw [hz]
        simp only [PyLatexGeneratePdfRepository.formulaReps, List.take_zero,
          List.map_nil, pySubstTokens_nil_reps, Nat.add_zero]
        simp [List.append_assoc]
    · -- at least one token
      have hpos : 0 < pyCount formulaTok (esc p.content) := Nat.pos_of_ne_zero hz
      rw [PyLatexGeneratePdfRepository.convert_step_pos esc page_formulas acc p hpos]
      have hcnt := PyLatexGeneratePdfRepository.step_content_count esc page_formulas hfla
        acc.current_formula_index p
      have hacc2le : acc.current_formula_index +
          min (pyCount formulaTok (esc p.content))
            (page_formulas.length - acc.current_formula_index) ≤
          page_formulas.length := by omega
      obtain ⟨ih1, ih2, ih3, ih4, ih5, ih6⟩ := ih
        { paragraphs := acc.paragraphs ++ [{ p with content := PyLatexGeneratePdfRepository.step_content esc page_formulas acc.current_formula_index p }]
          current_formula_index := acc.current_formula_index + min (pyCount formulaTok (esc p.content)) (page_formulas.length - acc.current_formula_index)
          not_enough_warnings := acc.not_enough_warnings + (if pyCount formulaTok (esc p.content) ≤ page_formulas.length - acc.current_formula_index then 0 else 1)
          remaining_token_warnings := acc.remaining_token_warnings + (if 0 < pyCount formulaTok (PyLatexGeneratePdfRepository.step_content esc page_formulas acc.current_formula_index p) then 1 else 0) }
        hacc2le
      simp only at ih1 ih2 ih3 ih4 ih5 ih6
      have hts : tokenSum (p :: rest) =
          pyCount formulaTok (esc p.content) + tokenSum rest := by
        rw [tokenSum_cons, hn]
      rw [hts]
      refine ⟨?_, ?_, ?_, ?_, ?_, ?_⟩
      · rw [ih1]
        omega
      · rw [ih2]
        simp only [List.length_append, List.length_cons, List.length_nil]
        omega
      · rw [ih3]
        simp only [List.map_append, List.sum_append, List.map_cons, List.map_nil,
          List.sum_cons, List.sum_nil, hcnt]
        omega
      · refine le_trans ?_ ih4
        omega
      · intro hover
        by_cases hw : pyCount formulaTok (esc p.content) ≤
            page_formulas.length - acc.current_formula_index
        · refine le_trans ?_ (ih5 (by omega))
          rw [if_pos hw]
        · refine le_trans ?_ ih4
          rw [if_neg hw]
      · intro hok
        have hw : pyCount formulaTok (esc p.content) ≤
            page_formulas.length - acc.current_formula_index := by omega
        have hmn : min (pyCount formulaTok (esc p.content))
            (page_formulas.length - acc.current_formula_index) =
            pyCount formulaTok (esc p.content) := by omega
        obtain ⟨ih6a, ih6b⟩ := ih6 (by omega)
        constructor
        · rw [ih6a]
          rw [PyLatexGeneratePdfRepository.thread_reference]
          rw [PyLatexGeneratePdfRepository.step_content_subst esc page_formulas hfla
            acc.current_formula_index p (by omega)]
          rw [hmn]
          simp [List.append_assoc]
        · rw [ih6b, if_pos hw]
          omega

/-- **C3** (amended): for a paragraph list whose `:formula:` token counts sum
to exactly the number of page formulas, and provided no formula's
`latex_value` itself contains the token (and given that escaping preserves
token counts, as `pylatex.utils.escape_latex` does),
`convert_paragraphs_to_latex` threads the formulas through the paragraphs in
list order, tokens left to right: the output equals the reference threading
in which paragraph `i`'s tokens are replaced by the next unused formulas'
(sanitised) `latex_value`s wrapped in dollars; the cursor ends at
`page_formulas.length`, so each formula is consumed exactly once, in list
order; no token remains in any output content; and no
not-enough-formulas warning is logged. -/
theorem PyLatexGeneratePdfRepository.convert_paragraphs_to_latex_threads_spec
    (esc : PyStr → PyStr)
    (hesc : ∀ s, pyCount formulaTok (esc s) = pyCount formulaTok s)
    (page_paragraphs : List Paragraph) (page_formulas : List Formula)
    (hfla : ∀ f ∈ page_formulas, pyCount formulaTok f.latex_value = 0)
    (hsum : tokenSum page_paragraphs = page_formulas.length) :
    (PyLatexGeneratePdfRepository.convert_paragraphs_to_latex esc page_paragraphs
        page_formulas).paragraphs =
      PyLatexGeneratePdfRepository.thread_reference esc page_formulas 0 page_paragraphs ∧
    (PyLatexGeneratePdfRepository.convert_paragraphs_to_latex esc page_paragraphs
        page_formulas).current_formula_index = page_formulas.length ∧
    (∀ q ∈ (PyLatexGeneratePdfRepository.convert_paragraphs_to_latex esc page_paragraphs
        page_formulas).paragraphs, pyCount formulaTok q.content = 0) ∧
    (PyLatexGeneratePdfRepository.convert_paragraphs_to_latex esc page_paragraphs
        page_formulas).not_enough_warnings = 0 := by
  obtain ⟨h1, h2, h3, h4, h5, h6⟩ :=
    PyLatexGeneratePdfRepository.convert_fold_general esc hesc page_formulas hfla
      page_paragraphs
      { paragraphs := [], current_formula_index := 0,
        not_enough_warnings := 0, remaining_token_warnings := 0 }
      (Nat.zero_le _)
  simp only [List.map_nil, List.sum_nil, Nat.zero_add, List.length_nil] at h1 h2 h3 h4 h5 h6
  obtain ⟨h6a, h6b⟩ := h6 (by omega)
  have h3z : ((page_paragraphs.foldl
      (PyLatexGeneratePdfRepository.convert_step esc page_formulas)
      { paragraphs := [], current_formula_index := 0,
        not_enough_warnings := 0, remaining_token_warnings := 0 }).paragraphs.map
      (fun q => pyCount formulaTok q.content)).sum = 0 := by
    rw [h3]
    omega
  refine ⟨?_, ?_, ?_, ?_⟩ <;>
    simp only [PyLatexGeneratePdfRepository.convert_paragraphs_to_latex]
  · rw [h6a]
    simp
  · rw [h1]
    omega
  · intro q hq
    exact List.sum_eq_zero_iff.mp h3z _ (List.mem_map_of_mem _ hq)
  · exact h6b

/-- **C3**: witness for the amended threading theorem on the spec's worked
example (one paragraph with one token, one formula). -/
theorem PyLatexGeneratePdfRepository.convert_paragraphs_to_latex_threads_spec_witness :
    (∀ f ∈ [c3formula], pyCount formulaTok f.latex_value = 0) ∧
    tokenSum [c3para] = ([c3formula] : List Formula).length ∧
    ((PyLatexGeneratePdfRepository.convert_paragraphs_to_latex id [c3para]
        [c3formula]).paragraphs =
      PyLatexGeneratePdfRepository.thread_reference id [c3formula] 0 [c3para] ∧
    (PyLatexGeneratePdfRepository.convert_paragraphs_to_latex id [c3para]
        [c3formula]).current_formula_index = ([c3formula] : List Formula).length ∧
    (∀ q ∈ (PyLatexGeneratePdfRepository.convert_paragraphs_to_latex id [c3para]
        [c3formula]).paragraphs, pyCount formulaTok q.content = 0) ∧
    (PyLatexGeneratePdfRepository.convert_paragraphs_to_latex id [c3para]
        [c3formula]).not_enough_warnings = 0) := by
  have hfla : ∀ f ∈ [c3formula], pyCount formulaTok f.latex_value = 0 := by
    simp [c3formula, formulaTok, pyCount]
  have hsum : tokenSum [c3para] = ([c3formula] : List Formula).length := by
    simp [tokenSum, c3para, formulaTok, pyCount]
  exact ⟨hfla, hsum,
    PyLatexGeneratePdfRepository.convert_paragraphs_to_latex_threads_spec id
      (fun s => rfl) [c3para] [c3formula] hfla hsum⟩

/-- **C3**: the claim as literally stated is false: with one paragraph that is
exactly one token and one formula whose `latex_value` is itself the token,
the counts match (one token, one formula) yet a token remains in the output
content after threading, because the substituted value re-injects it. -/
theorem PyLatexGeneratePdfRepository.convert_threads_token_reinjection :
    tokenSum [c3badPara] = ([c3badFormula] : List Formula).length ∧
    ((PyLatexGeneratePdfRepository.convert_paragraphs_to_latex id [c3badPara]
        [c3badFormula]).paragraphs.map
      (fun q => pyCount formulaTok q.content)).sum = 1 := by
  constructor
  · simp [tokenSum, c3badPara, c3para, formulaTok, pyCount]
  · simp [PyLatexGeneratePdfRepository.convert_paragraphs_to_latex,
      PyLatexGeneratePdfRepository.convert_step, PyLatexGeneratePdfRepository.subst_loop,
      PyLatexGeneratePdfRepository.sanitize_latex_value,
      PyLatexGeneratePdfRepository.wrapMath, pyContains,
      c3badPara, c3badFormula, c3para, c3formula, formulaTok, pyCount, pyReplaceFirst]

/-- **C5** (amended): when the paragraphs' total `:formula:` token count
exceeds the number of page formulas, and provided no formula's
`latex_value` itself contains the token (without this proviso a
substituted value can re-inject tokens and more than the surplus remains,
see the counterexample), `convert_paragraphs_to_latex` stops substituting
at exhaustion and still returns: the cursor ends exactly at
`page_formulas.length`, so no formula is reused or fabricated for the extra
tokens; exactly the surplus tokens remain verbatim across the returned
contents; at least one not-enough-formulas warning is surfaced; and one
paragraph is returned per input paragraph (the function is total — no
exception). -/
theorem PyLatexGeneratePdfRepository.convert_paragraphs_to_latex_exhaustion_spec
    (esc : PyStr → PyStr)
    (hesc : ∀ s, pyCount formulaTok (esc s) = pyCount formulaTok s)
    (page_paragraphs : List Paragraph) (page_formulas : List Formula)
    (hfla : ∀ f ∈ page_formulas, pyCount formulaTok f.latex_value = 0)
    (hgt : page_formulas.length < tokenSum page_paragraphs) :
    (PyLatexGeneratePdfRepository.convert_paragraphs_to_latex esc page_paragraphs
        page_formulas).current_formula_index = page_formulas.length ∧
    ((PyLatexGeneratePdfRepository.convert_paragraphs_to_latex esc page_paragraphs
        page_formulas).paragraphs.map (fun q => pyCount formulaTok q.content)).sum =
      tokenSum page_paragraphs - page_formulas.length ∧
    1 ≤ (PyLatexGeneratePdfRepository.convert_paragraphs_to_latex esc page_paragraphs
        page_formulas).not_enough_warnings ∧
    (PyLatexGeneratePdfRepository.convert_paragraphs_to_latex esc page_paragraphs
        page_formulas).paragraphs.length = page_paragraphs.length := by
  obtain ⟨h1, h2, h3, h4, h5, h6⟩ :=
    PyLatexGeneratePdfRepository.convert_fold_general esc hesc page_formulas hfla
      page_paragraphs
      { paragraphs := [], current_formula_index := 0,
        not_enough_warnings := 0, remaining_token_warnings := 0 }
      (Nat.zero_le _)
  simp only [List.map_nil, List.sum_nil, Nat.zero_add, List.length_nil] at h1 h2 h3 h4 h5 h6
  refine ⟨?_, ?_, ?_, ?_⟩ <;>
    simp only [PyLatexGeneratePdfRepository.convert_paragraphs_to_latex]
  · rw [h1]
    omega
  · rw [h3]
    omega
  · exact h5 (by omega)
  · rw [h2]

/-- **C5**: the claim as literally stated is false in its exact-surplus
reading: with two paragraphs that are each exactly one token and one
formula whose `latex_value` is itself the token, one token is in surplus
but two tokens remain in the returned contents — the substituted value
re-injected one. -/
theorem PyLatexGeneratePdfRepository.convert_exhaustion_not_exact_surplus :
    ([c3badFormula] : List Formula).length < tokenSum [c3badPara, c3badPara] ∧
    tokenSum [c3badPara, c3badPara] - ([c3badFormula] : List Formula).length = 1 ∧
    ((PyLatexGeneratePdfRepository.convert_paragraphs_to_latex id [c3badPara, c3badPara]
        [c3badFormula]).paragraphs.map
      (fun q => pyCount formulaTok q.content)).sum = 2 := by
  refine ⟨?_, ?_, ?_⟩
  · simp [tokenSum, c3badPara, c3para, formulaTok, pyCount]
  · simp [tokenSum, c3badPara, c3para, formulaTok, pyCount]
  · simp [PyLatexGeneratePdfRepository.convert_paragraphs_to_latex,
      PyLatexGeneratePdfRepository.convert_step, PyLatexGeneratePdfRepository.subst_loop,
      PyLatexGeneratePdfRepository.sanitize_latex_value,
      PyLatexGeneratePdfRepository.wrapMath, pyContains,
      c3badPara, c3badFormula, c3para, c3formula, formulaTok, pyCount, pyReplaceFirst]

/-- **C5**: witness for the amended exhaustion theorem — two one-token
paragraphs, one formula. -/
theorem PyLatexGeneratePdfRepository.convert_paragraphs_to_latex_exhaustion_spec_witness :
    (∀ f ∈ [c3formula], pyCount formulaTok f.latex_value = 0) ∧
    ([c3formula] : List Formula).length < tokenSum [c3para, c3para] ∧
    ((PyLatexGeneratePdfRepository.convert_paragraphs_to_latex id [c3para, c3para]
        [c3formula]).current_formula_index = ([c3formula] : List Formula).length ∧
    ((PyLatexGeneratePdfRepository.convert_paragraphs_to_latex id [c3para, c3para]
        [c3formula]).paragraphs.map (fun q => pyCount formulaTok q.content)).sum =
      tokenSum [c3para, c3para] - ([c3formula] : List Formula).length ∧
    1 ≤ (PyLatexGeneratePdfRepository.convert_paragraphs_to_latex id [c3para, c3para]
        [c3formula]).not_enough_warnings ∧
    (PyLatexGeneratePdfRepository.convert_paragraphs_to_latex id [c3para, c3para]
        [c3formula]).paragraphs.length = ([c3para, c3para] : List Paragraph).length) := by
  have hfla : ∀ f ∈ [c3formula], pyCount formulaTok f.latex_value = 0 := by
    simp [c3formula, formulaTok, pyCount]
  have hgt : ([c3formula] : List Formula).length < tokenSum [c3para, c3para] := by
    simp [tokenSum, c3para, formulaTok, pyCount]
  exact ⟨hfla, hgt,
    PyLatexGeneratePdfRepository.convert_paragraphs_to_latex_exhaustion_spec id
      (fun s => rfl) [c3para, c3para] [c3formula] hfla hgt⟩

end OcrModule
